import Mathlib

/-!
Verification development for the `slsm` storage engine (`src/main.ts`).

The engine is shallowly embedded: JSON values are an inductive type,
`JSON.stringify` is modelled by an executable serializer, the storage
substrate is an association list from physical keys to raw stored strings
(a raw string is modelled post-`JSON.parse`: either a parse failure or the
parsed JSON value), machine time is a natural number of milliseconds
measured from the TTL reference epoch, and user-supplied callbacks
(schemas, prune steps, TTL part functions, migrations) are explicit
function parameters.
-/

set_option maxHeartbeats 1000000
set_option maxRecDepth 10000

namespace Slsm

/-- JSON values (the payloads `JSON.parse` can produce). Numbers are
restricted to integers, which covers every value the engine itself
manufactures (envelope timestamps are `Math.round` results). -/
inductive JVal where
  | null : JVal
  | bool (b : Bool) : JVal
  | num (n : Int) : JVal
  | str (s : String) : JVal
  | arr (elems : List JVal) : JVal
  | obj (fields : List (String × JVal)) : JVal

mutual

def JVal.decEq : (a b : JVal) → Decidable (a = b)
  | .null, .null => isTrue rfl
  | .bool a, .bool b =>
      if h : a = b then isTrue (by rw [h])
      else isFalse fun hh => h (JVal.bool.inj hh)
  | .num a, .num b =>
      if h : a = b then isTrue (by rw [h])
      else isFalse fun hh => h (JVal.num.inj hh)
  | .str a, .str b =>
      if h : a = b then isTrue (by rw [h])
      else isFalse fun hh => h (JVal.str.inj hh)
  | .arr a, .arr b =>
      match JVal.decEqList a b with
      | isTrue h => isTrue (by rw [h])
      | isFalse h => isFalse fun hh => h (JVal.arr.inj hh)
  | .obj a, .obj b =>
      match JVal.decEqFields a b with
      | isTrue h => isTrue (by rw [h])
      | isFalse h => isFalse fun hh => h (JVal.obj.inj hh)
  | .null, .bool _ => isFalse fun h => JVal.noConfusion h
  | .null, .num _ => isFalse fun h => JVal.noConfusion h
  | .null, .str _ => isFalse fun h => JVal.noConfusion h
  | .null, .arr _ => isFalse fun h => JVal.noConfusion h
  | .null, .obj _ => isFalse fun h => JVal.noConfusion h
  | .bool _, .null => isFalse fun h => JVal.noConfusion h
  | .bool _, .num _ => isFalse fun h => JVal.noConfusion h
  | .bool _, .str _ => isFalse fun h => JVal.noConfusion h
  | .bool _, .arr _ => isFalse fun h => JVal.noConfusion h
  | .bool _, .obj _ => isFalse fun h => JVal.noConfusion h
  | .num _, .null => isFalse fun h => JVal.noConfusion h
  | .num _, .bool _ => isFalse fun h => JVal.noConfusion h
  | .num _, .str _ => isFalse fun h => JVal.noConfusion h
  | .num _, .arr _ => isFalse fun h => JVal.noConfusion h
  | .num _, .obj _ => isFalse fun h => JVal.noConfusion h
  | .str _, .null => isFalse fun h => JVal.noConfusion h
  | .str _, .bool _ => isFalse fun h => JVal.noConfusion h
  | .str _, .num _ => isFalse fun h => JVal.noConfusion h
  | .str _, .arr _ => isFalse fun h => JVal.noConfusion h
  | .str _, .obj _ => isFalse fun h => JVal.noConfusion h
  | .arr _, .null => isFalse fun h => JVal.noConfusion h
  | .arr _, .bool _ => isFalse fun h => JVal.noConfusion h
  | .arr _, .num _ => isFalse fun h => JVal.noConfusion h
  | .arr _, .str _ => isFalse fun h => JVal.noConfusion h
  | .arr _, .obj _ => isFalse fun h => JVal.noConfusion h
  | .obj _, .null => isFalse fun h => JVal.noConfusion h
  | .obj _, .bool _ => isFalse fun h => JVal.noConfusion h
  | .obj _, .num _ => isFalse fun h => JVal.noConfusion h
  | .obj _, .str _ => isFalse fun h => JVal.noConfusion h
  | .obj _, .arr _ => isFalse fun h => JVal.noConfusion h

def JVal.decEqList : (a b : List JVal) → Decidable (a = b)
  | [], [] => isTrue rfl
  | [], _ :: _ => isFalse fun h => List.noConfusion h
  | _ :: _, [] => isFalse fun h => List.noConfusion h
  | a :: as, b :: bs =>
      match JVal.decEq a b, JVal.decEqList as bs with
      | isTrue h1, isTrue h2 => isTrue (by rw [h1, h2])
      | isFalse h1, _ => isFalse fun h => h1 (List.cons.inj h).1
      | _, isFalse h2 => isFalse fun h => h2 (List.cons.inj h).2

def JVal.decEqFields :
    (a b : List (String × JVal)) → Decidable (a = b)
  | [], [] => isTrue rfl
  | [], _ :: _ => isFalse fun h => List.noConfusion h
  | _ :: _, [] => isFalse fun h => List.noConfusion h
  | (k1, v1) :: as, (k2, v2) :: bs =>
      if hk : k1 = k2 then
        match JVal.decEq v1 v2, JVal.decEqFields as bs with
        | isTrue h1, isTrue h2 => isTrue (by rw [hk, h1, h2])
        | isFalse h1, _ =>
            isFalse fun h => h1 (congrArg Prod.snd (List.cons.inj h).1)
        | _, isFalse h2 => isFalse fun h => h2 (List.cons.inj h).2
      else
        isFalse fun h => hk (congrArg Prod.fst (List.cons.inj h).1)

end

instance : DecidableEq JVal := JVal.decEq

/-- Escape the characters appearing in this development the way
`JSON.stringify` does (quote and backslash; control characters do not
occur in any value considered here). -/
def escChars : List Char → List Char
  | [] => []
  | c :: rest =>
    (if c = '"' then ['\\', '"']
     else if c = '\\' then ['\\', '\\']
     else [c]) ++ escChars rest

def quoteChars (l : List Char) : List Char :=
  '"' :: (escChars l ++ ['"'])

mutual

/-- Executable model of `JSON.stringify` (compact form, fields in
insertion order) at the character-list level, used by the engine for
serialized-size measurement (`autoPruneBySize`, quota eviction
tie-breaking). -/
def jsonChars : JVal → List Char
  | .null => "null".data
  | .bool true => "true".data
  | .bool false => "false".data
  | .num n => (toString n).data
  | .str s => quoteChars s.data
  | .arr elems => '[' :: (jsonCharsList elems ++ [']'])
  | .obj fields => '\x7b' :: (jsonCharsFields fields ++ ['\x7d'])

def jsonCharsList : List JVal → List Char
  | [] => []
  | [v] => jsonChars v
  | v :: rest => jsonChars v ++ ',' :: jsonCharsList rest

def jsonCharsFields : List (String × JVal) → List Char
  | [] => []
  | [(k, v)] => quoteChars k.data ++ ':' :: jsonChars v
  | (k, v) :: rest =>
    quoteChars k.data ++ ':' :: jsonChars v ++ ',' :: jsonCharsFields rest

end

/-- `JSON.stringify(value)`. -/
def jsonStr (v : JVal) : String :=
  String.mk (jsonChars v)

/-- Serialized size in bytes of a value, `JSON.stringify(value).length`. -/
def jsonSize (v : JVal) : Nat :=
  (jsonChars v).length

/-- A raw string held by the storage substrate, modelled after the only
observation the engine makes of it: `JSON.parse` either throws
(`malformed`, carrying the string length for quota-eviction size
ordering) or yields a JSON value (`wire`). `JSON.parse (JSON.stringify v)
= v` holds by construction of this model. -/
inductive Raw where
  | malformed (len : Nat) : Raw
  | wire (j : JVal) : Raw
  deriving DecidableEq

/-- `rawString.length` for a stored raw string. -/
def rawLen : Raw → Nat
  | .malformed n => n
  | .wire j => jsonSize j

/-! ### Field lookup on JSON objects -/

def jlookup (fields : List (String × JVal)) (k : String) : Option JVal :=
  match fields with
  | [] => none
  | (k', v) :: rest => if k' = k then some v else jlookup rest k

/-! ## Item configuration (`ItemOptions`) -/

/-- `ttl` option: whole-item (`minutes` only) or partitioned
(`splitIntoParts` / `removePart`). -/
inductive TtlOption where
  | whole (minutes : Nat) : TtlOption
  | split (minutes : Nat) (splitIntoParts : JVal → List String)
      (removePart : JVal → String → JVal) : TtlOption

def TtlOption.minutes : TtlOption → Nat
  | .whole m => m
  | .split m _ _ => m

/-- `syncDelay` option (`debounce` or `onIdleCallback`). -/
inductive SyncDelay where
  | debounce (ms : Nat) (maxWaitMs : Option Nat) : SyncDelay
  | onIdleCallback (timeoutMs : Nat) (maxWaitMs : Option Nat) : SyncDelay

/-- Compression config. `decompressFn` is modelled as returning the
`JSON.parse` of its output string (or `none` when it throws), because the
engine immediately parses the decompressed string. -/
structure CompressCfg where
  format : String
  compressFn : String → String
  decompressFn : String → Option Raw

/-- `ItemOptions<V>`: per-item configuration. The schema capability
`schema.parse` is modelled as `JVal → Option JVal` (`none` = validation
errors), `migrate` as `JVal → Option JVal` (`none` = returned undefined
or threw). -/
structure ItemCfg where
  schemaParse : JVal → Option JVal
  dflt : JVal
  priority : Int := 0
  ignoreSessionId : Bool := false
  useSessionStorage : Bool := false
  ttl : Option TtlOption := none
  autoPrune : Option (JVal → JVal) := none
  autoPruneBySizeMaxKb : Option Nat := none
  autoPruneBySizeStep : JVal → JVal := id
  compress : Option CompressCfg := none
  syncDelayDisabled : Bool := false
  syncDelayItem : Option SyncDelay := none
  migrate : Option (JVal → Option JVal) := none

/-- Store-wide configuration: the item table, `getSessionId` (modelled as
a constant per scenario; `none` stands for the JS literal `false`), the
global `compress` and global `syncDelay`. -/
structure StoreCfg where
  items : List (String × ItemCfg)
  getSessionId : Option String := some ""
  compress : Option CompressCfg := none
  syncDelay : Option SyncDelay := none

def StoreCfg.item (cfg : StoreCfg) (key : String) : Option ItemCfg :=
  cfg.items.lookup key

/-! ## Time helpers

Machine time is an `Int` of milliseconds measured from
`TTL_REFERENCE_EPOCH_MS` (so the epoch itself is `0`). -/

def MS_PER_MINUTE : Int := 60000

/-- `toEnvelopeMinutes`: `Math.round((timestamp - epoch) / 60000)`.
JavaScript's `Math.round x` equals `⌊x + 1/2⌋` for every `x`, which for
the quotient by `60000` is the flooring division below. -/
def toEnvelopeMinutes (timestamp : Int) : Int :=
  (timestamp + 30000).fdiv 60000

/-- `fromEnvelopeMinutes`: `epoch + minuteStamp * 60000`. -/
def fromEnvelopeMinutes (minuteStamp : Int) : Int :=
  minuteStamp * 60000

def getTtlDurationMs (ttl : TtlOption) : Int :=
  (ttl.minutes : Int) * MS_PER_MINUTE

/-! ## Envelope codec -/

/-- In-memory TTL metadata attached to a parsed value (`TtlMetadata`).
`parts` is an association list, preserving JavaScript object insertion
order (the order `Object.entries` iterates in). -/
structure TtlMetadata where
  updatedAt : Int
  parts : Option (List (String × Int)) := none
  deriving DecidableEq

/-- Result of a successful `envelopeSchema.parse`: the wrapped shape
`{t?, p?, _v, c?}`. `_v` must be present; `t` must be a number, `p` a
record of numbers and `c` a string when present; extra fields are
tolerated. -/
structure EnvelopeR where
  t : Option Int := none
  p : Option (List (String × Int)) := none
  v : JVal
  c : Option String := none

def asNumRecord : List (String × JVal) → Option (List (String × Int))
  | [] => some []
  | (k, .num n) :: rest => (asNumRecord rest).map (fun r => (k, n) :: r)
  | _ :: _ => none

/-- `envelopeSchema.parse` (built from `rc_obj_builder`): accepts an
object with a present `_v`, an optional numeric `t`, an optional
number-record `p` and an optional string `c`. -/
def envelopeParse (j : JVal) : Option EnvelopeR :=
  match j with
  | .obj fields =>
    match jlookup fields "_v" with
    | none => none
    | some v =>
      let tF :=
        match jlookup fields "t" with
        | none => some none
        | some (.num n) => some (some n)
        | some _ => none
      let pF :=
        match jlookup fields "p" with
        | none => some none
        | some (.obj entries) => (asNumRecord entries).map some
        | some _ => none
      let cF :=
        match jlookup fields "c" with
        | none => some none
        | some (.str s) => some (some s)
        | some _ => none
      match tF, pF, cF with
      | some t, some p, some c => some { t := t, p := p, v := v, c := c }
      | _, _, _ => none
  | _ => none

def getCompressionForKey (cfg : StoreCfg) (item : ItemCfg) : Option CompressCfg :=
  item.compress <|> cfg.compress

/-- `tryMigrateValue`: run the item's `migrate` callback on an invalid
value (`none` models both "returned undefined" and "threw"), then
re-validate the migrated value against the schema. -/
def tryMigrateValue (item : ItemCfg) (invalidValue : JVal) : Option JVal :=
  match item.migrate with
  | none => none
  | some migrate =>
    match migrate invalidValue with
    | none => none
    | some migratedValue =>
      match item.schemaParse migratedValue with
      | none => none
      | some v => some v

/-- Schema validation followed by the migration fallback — the pattern
repeated at every validation site of `parseStoredValue`. -/
def validateOrMigrate (item : ItemCfg) (j : JVal) : Option JVal :=
  match item.schemaParse j with
  | some v => some v
  | none => tryMigrateValue item j

/-- Convert an envelope's `p` record (minute stamps) to in-memory parts
metadata; a missing or empty record yields no parts map. -/
def partsFromEnvelope (p : Option (List (String × Int))) :
    Option (List (String × Int)) :=
  match p with
  | some entries =>
    if entries.length > 0 then
      some (entries.map (fun e => (e.1, fromEnvelopeMinutes e.2)))
    else none
  | none => none

/-- The bare branch of `parseStoredValue`: validate the parsed JSON
directly, no TTL metadata. -/
def parseBare (item : ItemCfg) (parsed : JVal) :
    Option (JVal × Option TtlMetadata) :=
  match validateOrMigrate item parsed with
  | some value => some (value, none)
  | none => none

/-- The wrapped-with-timestamp branch of `parseStoredValue`: validate the
inner `_v`, building metadata from `t`/`p`. -/
def parseWrapped (item : ItemCfg) (envelope : EnvelopeR) (tMin : Int) :
    Option (JVal × Option TtlMetadata) :=
  match validateOrMigrate item envelope.v with
  | some value =>
    some (value,
      some { updatedAt := fromEnvelopeMinutes tMin
             parts := partsFromEnvelope envelope.p })
  | none => none

/-- `parseStoredValue`: decode a raw stored string into a value plus
optional TTL metadata; `none` models every logged-and-swallowed decode
failure (malformed JSON, missing/mismatched compression config,
decompression failure, failed validation with no usable migration). -/
def parseStoredValue (cfg : StoreCfg) (item : ItemCfg) (rawValue : Raw) :
    Option (JVal × Option TtlMetadata) :=
  match rawValue with
  | .malformed _ => none
  | .wire parsed =>
    match envelopeParse parsed with
    | some envelope =>
      match envelope.c with
      | some ctag =>
        match getCompressionForKey cfg item with
        | none => none
        | some compression =>
          if compression.format ≠ ctag then none
          else
            match envelope.v with
            | .str compressedStr =>
              match compression.decompressFn compressedStr with
              | none => none
              | some (.malformed _) => none
              | some (.wire inner) =>
                match envelopeParse inner with
                | some innerEnvelope =>
                  match innerEnvelope.t with
                  | some tMin => parseWrapped item innerEnvelope tMin
                  | none => parseBare item inner
                | none => parseBare item inner
            | _ => none
      | none =>
        match envelope.t with
        | some tMin => parseWrapped item envelope tMin
        | none => parseBare item parsed
    | none => parseBare item parsed

/-- `createEnvelopePayload`: the wrapped JSON shape written to storage
(`_v` first, then `t`, then `p` when the parts map is nonempty —
JavaScript object insertion order). -/
def createEnvelopePayload (value : JVal) (metadata : TtlMetadata) : JVal :=
  .obj ([("_v", value), ("t", .num (toEnvelopeMinutes metadata.updatedAt))] ++
    (match metadata.parts with
     | some parts =>
       if parts.length > 0 then
         [("p", .obj (parts.map (fun e => (e.1, .num (toEnvelopeMinutes e.2)))))]
       else []
     | none => []))

/-! ## TTL evaluation (pure parts) -/

/-- First-occurrence deduplication, the order in which repeated
JavaScript object key assignments (and `new Set`) retain keys. -/
def dedupKeys : List String → List String
  | [] => []
  | k :: rest => k :: (dedupKeys rest).filter (fun k' => k' ≠ k)

/-- `synthesizeMetadataFromValue`: metadata "fresh as of now" for a
legacy bare value read by a TTL-enabled item. -/
def synthesizeMetadataFromValue (value : JVal) (ttl : TtlOption) (now : Int) :
    TtlMetadata :=
  match ttl with
  | .whole _ => { updatedAt := now }
  | .split _ splitIntoParts _ =>
    let parts := (dedupKeys (splitIntoParts value)).map (fun k => (k, now))
    { updatedAt := now
      parts := if parts.length = 0 then none else some parts }

structure TtlEvaluation where
  expired : Bool
  changed : Bool
  value : JVal
  metadata : TtlMetadata

/-- `evaluateTtl`: whole-item expiry is `now - updatedAt >= duration`;
partitioned expiry removes each part with `now - partTimestamp >=
duration` via `removePart` and drops it from the parts map (a
partitioned item is never expired as a unit). -/
def evaluateTtl (value : JVal) (metadata : TtlMetadata) (ttl : TtlOption)
    (now : Int) : TtlEvaluation :=
  match ttl with
  | .whole _ =>
    { expired := now - metadata.updatedAt ≥ getTtlDurationMs ttl
      changed := false, value := value, metadata := metadata }
  | .split _ _ removePart =>
    let parts := metadata.parts.getD []
    let expiredParts :=
      (parts.filter (fun e => now - e.2 ≥ getTtlDurationMs ttl)).map (·.1)
    if expiredParts.length = 0 then
      { expired := false, changed := false, value := value, metadata := metadata }
    else
      let nextValue := expiredParts.foldl removePart value
      let remaining := parts.filter (fun e => ¬ expiredParts.contains e.1)
      { expired := false
        changed := true
        value := nextValue
        metadata :=
          { updatedAt := metadata.updatedAt
            parts := if remaining.length = 0 then none else some remaining } }

/-! ## Pruning engine (`applyAutoPrune`) -/

def MAX_PRUNE_ITERATIONS : Nat := 1000

/-- The `while (serialized.length > maxBytes)` loop body of
`applyAutoPrune`. `fuelLeft` is `MAX_ITERATIONS - iterations` (the
counter increments only after a successful shrinking step, exactly as in
the source); `orig` is the raw argument `applyAutoPrune` received —
`nextValue = value` on a failed shrink resets to it, before even the
predicate `autoPrune` stage. -/
def pruneBySizeLoop (step : JVal → JVal) (maxBytes : Nat) (orig : JVal) :
    Nat → JVal → JVal
  | fuelLeft, cur =>
    if jsonSize cur ≤ maxBytes then cur
    else
      match fuelLeft with
      | 0 => cur
      | fuelLeft' + 1 =>
        let pruned := step cur
        if pruned = cur then cur
        else if jsonSize pruned ≥ jsonSize cur then orig
        else pruneBySizeLoop step maxBytes orig fuelLeft' pruned

/-- `applyAutoPrune`: predicate prune (unconditional), then the
size-bounded prune loop with `maxBytes = maxKb * 1024`, entered at the
predicate-pruned value but reverting to the raw `value` argument when a
step fails to shrink. -/
def applyAutoPrune (item : ItemCfg) (value : JVal) : JVal :=
  let nextValue :=
    match item.autoPrune with
    | some f => f value
    | none => value
  match item.autoPruneBySizeMaxKb with
  | some maxKb =>
      pruneBySizeLoop item.autoPruneBySizeStep (maxKb * 1024) value
        MAX_PRUNE_ITERATIONS nextValue
  | none => nextValue

/-! ## System state

One store instance's mutable state: the two storage substrates, the TTL
state map, the `t-state` store cells, the internal-update flags and the
pending deferred writes. `writeLog` is a ghost field recording every
physical `storage.setItem` performed by `writeToStorage`, used only to
observe write counts; the engine never reads it. Timer handles are
modelled as the absolute instant the timer is due (`timerAt`/`fireAt`);
in the single-threaded event-loop model a timer's callback runs when
control is idle and its instant has passed, which the theorems make
explicit via `firePendingSync`. -/

inductive StorageTarget where
  | loc : StorageTarget
  | sess : StorageTarget
  deriving DecidableEq

structure TtlState where
  key : String
  updatedAt : Int
  parts : Option (List (String × Int)) := none
  timerAt : Option Int := none
  deriving DecidableEq

inductive SyncSource where
  | cleanup : SyncSource
  | mutation : SyncSource
  deriving DecidableEq

structure PendingSync where
  fireAt : Option Int := none
  isIdleCallback : Bool := false
  value : JVal
  metadata : Option TtlMetadata := none
  source : Option SyncSource := none
  firstScheduledAt : Int
  deriving DecidableEq

structure Sys where
  localStore : List (String × Raw) := []
  sessionStore : List (String × Raw) := []
  ttlStates : List (String × TtlState) := []
  itemStores : List (String × JVal) := []
  isInternalUpdate : List (String × Bool) := []
  pendingSyncOperations : List (String × PendingSync) := []
  writeLog : List (String × JVal) := []
  deriving DecidableEq

/-! ### Association-list maps (JavaScript `Map` / storage objects).
Insertion order is preserved: overwriting keeps the position, new keys
append, matching both `Map` and the storage substrate's enumeration. -/

def aget {α : Type} : List (String × α) → String → Option α
  | [], _ => none
  | (k', v) :: rest, k => if k' = k then some v else aget rest k

def aset {α : Type} : List (String × α) → String → α → List (String × α)
  | [], k, v => [(k, v)]
  | (k', v') :: rest, k, v =>
    if k' = k then (k, v) :: rest else (k', v') :: aset rest k v

def adel {α : Type} (m : List (String × α)) (k : String) :
    List (String × α) :=
  m.filter (fun e => e.1 ≠ k)

def Sys.storage (sys : Sys) : StorageTarget → List (String × Raw)
  | .loc => sys.localStore
  | .sess => sys.sessionStore

def Sys.setStorage (sys : Sys) : StorageTarget → List (String × Raw) → Sys
  | .loc, m => { sys with localStore := m }
  | .sess, m => { sys with sessionStore := m }

def storageSetItem (sys : Sys) (target : StorageTarget) (k : String)
    (r : Raw) : Sys :=
  sys.setStorage target (aset (sys.storage target) k r)

def storageRemoveItem (sys : Sys) (target : StorageTarget) (k : String) : Sys :=
  sys.setStorage target (adel (sys.storage target) k)

/-! ## Key codec -/

def getItemStorageTarget (item : ItemCfg) : StorageTarget :=
  if item.useSessionStorage then .sess else .loc

/-- `String.prototype.startsWith` (structurally recursive so proofs can
evaluate it). -/
def strStartsWith (s p : String) : Bool :=
  p.data.isPrefixOf s.data

/-- Substring occurrence, `String.prototype.includes`. -/
def hasSub (pat : List Char) : List Char → Bool
  | [] => pat.isEmpty
  | l@(_ :: rest) => pat.isPrefixOf l || hasSub pat rest

def strIncludes (s pat : String) : Bool :=
  hasSub pat.data s.data

/-- `String.prototype.split` specialized to the reserved `||` separator
(leftmost, non-overlapping occurrences, as in JavaScript). -/
def splitDB : List Char → List (List Char)
  | [] => [[]]
  | '|' :: '|' :: rest => [] :: splitDB rest
  | c :: rest =>
    match splitDB rest with
    | [] => [[c]]
    | h :: t => (c :: h) :: t

/-- `getStorageForKey`: session storage iff the key contains `|s||`. -/
def getStorageForKey (storageKey : String) : StorageTarget :=
  if strIncludes storageKey "|s||" then .sess else .loc

/-- `getLocalStorageItemKey`: `false` (here `none`) when the session-id
provider reports no session and the item is session-scoped; otherwise
`slsm[-sessionId][|s]||itemName`. -/
def getLocalStorageItemKey (cfg : StoreCfg) (key : String) : Option String :=
  match cfg.item key with
  | none => none
  | some item =>
    let sessionId := if item.ignoreSessionId then some "" else cfg.getSessionId
    match sessionId with
    | none => none
    | some sid =>
      some ("slsm" ++ (if sid = "" then "" else "-" ++ sid) ++
        (if item.useSessionStorage then "|s" else "") ++ "||" ++ key)

/-- `getItemKeyFromStorageKey`: `storageKey.split('||')[1]`. An absent
segment and an empty segment are both falsy at every use site, so both
map to `none`. -/
def getItemKeyFromStorageKey (storageKey : String) : Option String :=
  match (splitDB storageKey.data).get? 1 with
  | some cs => if cs = [] then none else some (String.mk cs)
  | none => none

/-- `getSyncDelayForKey`: a per-item `false` suppresses the global
default; otherwise the per-item policy, falling back to the global. -/
def getSyncDelayForKey (cfg : StoreCfg) (item : ItemCfg) : Option SyncDelay :=
  if item.syncDelayDisabled then none
  else item.syncDelayItem <|> cfg.syncDelay

/-- `getStorageItemKeys`: enumerate a storage's keys in order, skipping
`except` and anything not namespaced by `slsm`. -/
def getStorageItemKeys (storage : List (String × Raw))
    (except : Option String) : List String :=
  (storage.map (·.1)).filter
    (fun k => !(except == some k) && strStartsWith k "slsm")

/-! ## TTL state bookkeeping -/

def cancelPendingSync (sys : Sys) (storageKey : String) : Sys :=
  { sys with pendingSyncOperations := adel sys.pendingSyncOperations storageKey }

def clearTtlState (sys : Sys) (storageKey : String) : Sys :=
  { sys with ttlStates := adel sys.ttlStates storageKey }

/-- `scheduleNextTtlCheck`: the earliest upcoming expiry instant (the
armed timer's due time; the timer handle is modelled as this instant). -/
def scheduleNextTtlCheck (cfg : StoreCfg) (state : TtlState) : Option Int :=
  match cfg.item state.key with
  | none => none
  | some item =>
    match item.ttl with
    | none => none
    | some ttl =>
      match ttl with
      | .split _ _ _ =>
        match (state.parts.getD []).map (·.2) with
        | [] => none
        | t :: ts => some (ts.foldl min t + getTtlDurationMs ttl)
      | .whole _ => some (state.updatedAt + getTtlDurationMs ttl)

def setTtlState (cfg : StoreCfg) (sys : Sys) (storageKey key : String)
    (metadata : Option TtlMetadata) : Sys :=
  match metadata with
  | none => { sys with ttlStates := adel sys.ttlStates storageKey }
  | some md =>
    let st : TtlState :=
      { key := key, updatedAt := md.updatedAt, parts := md.parts }
    let st := { st with timerAt := scheduleNextTtlCheck cfg st }
    { sys with ttlStates := aset sys.ttlStates storageKey st }

/-! ## Physical writes -/

/-- `writeToStorage` less the quota-recovery catch (capacity failures
are modelled separately by `handleQuotaExceeded`; the main pipeline's
storage substrate accepts every write). With compression configured the
value is serialized, compressed and wrapped as `{_v: compressed, c:
format}`. -/
def writeToStorage (cfg : StoreCfg) (sys : Sys) (storageKey : String)
    (value : JVal) (target : StorageTarget) : Sys :=
  let compression :=
    match getItemKeyFromStorageKey storageKey with
    | some itemKey =>
      match cfg.item itemKey with
      | some item => getCompressionForKey cfg item
      | none => none
    | none => none
  let payload :=
    match compression with
    | some compression =>
      JVal.obj [("_v", .str (compression.compressFn (jsonStr value))),
                ("c", .str compression.format)]
    | none => value
  let sys := storageSetItem sys target storageKey (.wire payload)
  { sys with writeLog := sys.writeLog ++ [(storageKey, payload)] }

/-- The `performWrite` closure inside `persistValue`: encode (wrapped
when TTL metadata exists, bare otherwise), write, update TTL state,
drop the pending sync entry. -/
def performWriteCore (cfg : StoreCfg) (key : String) (item : ItemCfg)
    (value : JVal) (metadata : Option TtlMetadata) (storageKey : String)
    (sys : Sys) : Sys :=
  let target := getItemStorageTarget item
  match item.ttl, metadata with
  | some _, some md =>
    let sys := writeToStorage cfg sys storageKey (createEnvelopePayload value md) target
    let sys := setTtlState cfg sys storageKey key (some md)
    { sys with pendingSyncOperations := adel sys.pendingSyncOperations storageKey }
  | _, _ =>
    let sys := writeToStorage cfg sys storageKey value target
    let sys := clearTtlState sys storageKey
    { sys with pendingSyncOperations := adel sys.pendingSyncOperations storageKey }

/-- `maxWaitMs` is checked for truthiness in the source, so a configured
`0` behaves as absent. -/
def effectiveMaxWait (maxWaitMs : Option Nat) : Option Nat :=
  match maxWaitMs with
  | some w => if w = 0 then none else some w
  | none => none

/-- `persistValue`: stamp TTL metadata (whole-item: `now`; partitioned:
preserve existing part stamps, stamp new parts `now`, drop vanished
parts), then write immediately or defer through the sync scheduler.
Only `mutation`-sourced writes are deferred. -/
def persistValue (cfg : StoreCfg) (key : String) (value : JVal)
    (storageKey : String) (metadataOverride : Option TtlMetadata)
    (source : Option SyncSource) (now : Int) (sys : Sys) : Sys :=
  match cfg.item key with
  | none => sys
  | some item =>
    let metadata : Option TtlMetadata :=
      match metadataOverride with
      | some md => some md
      | none =>
        match item.ttl with
        | none => none
        | some ttl =>
          match ttl with
          | .split _ splitIntoParts _ =>
            let previousParts :=
              match aget sys.ttlStates storageKey with
              | some st => st.parts.getD []
              | none => []
            let uniquePartKeys := dedupKeys (splitIntoParts value)
            let nextParts := uniquePartKeys.map
              (fun k => (k, (aget previousParts k).getD now))
            some { updatedAt := now
                   parts := if nextParts.length = 0 then none else some nextParts }
          | .whole _ => some { updatedAt := now }
    let syncDelayConfig :=
      if source = some .mutation then getSyncDelayForKey cfg item else none
    match syncDelayConfig with
    | none => performWriteCore cfg key item value metadata storageKey sys
    | some sdc =>
      let pending := aget sys.pendingSyncOperations storageKey
      let firstScheduledAt := (pending.map (·.firstScheduledAt)).getD now
      let sys := cancelPendingSync sys storageKey
      match sdc with
      | .debounce ms maxWaitMs =>
        match effectiveMaxWait maxWaitMs with
        | some maxWait =>
          let elapsed := now - firstScheduledAt
          let timeUntilMaxWait := (maxWait : Int) - elapsed
          if timeUntilMaxWait ≤ 0 then
            performWriteCore cfg key item value metadata storageKey sys
          else
            let delay := min (ms : Int) timeUntilMaxWait
            let pend : PendingSync :=
              { fireAt := some (now + delay), value := value,
                metadata := metadata, source := source,
                firstScheduledAt := firstScheduledAt }
            { sys with pendingSyncOperations := aset sys.pendingSyncOperations storageKey pend }
        | none =>
          let pend : PendingSync :=
            { fireAt := some (now + (ms : Int)), value := value,
              metadata := metadata, source := source,
              firstScheduledAt := firstScheduledAt }
          { sys with pendingSyncOperations := aset sys.pendingSyncOperations storageKey pend }
      | .onIdleCallback _ _ =>
        let pend : PendingSync :=
          { fireAt := none, isIdleCallback := true, value := value,
            metadata := metadata, source := source,
            firstScheduledAt := firstScheduledAt }
        { sys with pendingSyncOperations := aset sys.pendingSyncOperations storageKey pend }

/-- A scheduled deferral's callback running: the captured `performWrite`
executes with the payload recorded in the pending entry. A no-op when
the entry was cancelled. -/
def firePendingSync (cfg : StoreCfg) (storageKey : String) (sys : Sys) : Sys :=
  match aget sys.pendingSyncOperations storageKey with
  | none => sys
  | some pending =>
    match getItemKeyFromStorageKey storageKey with
    | none => sys
    | some key =>
      match cfg.item key with
      | none => sys
      | some item =>
        performWriteCore cfg key item pending.value pending.metadata storageKey sys

/-! ## Read pipeline -/

structure InitialReadResult where
  value : JVal
  metadata : Option TtlMetadata
  shouldPersist : Bool

/-- `getInitialValue`: physical read, decode, TTL check. Deletes the
physical entry when already expired. `shouldPersist` signals synthesized
metadata (legacy bare value under a TTL item) or a part expiry that
changed the value. -/
def getInitialValue (cfg : StoreCfg) (_key : String) (item : ItemCfg)
    (storageKey : String) (now : Int) (sys : Sys) :
    Sys × Option InitialReadResult :=
  let target := getItemStorageTarget item
  match aget (sys.storage target) storageKey with
  | none => (sys, none)
  | some rawValue =>
    match parseStoredValue cfg item rawValue with
    | none => (sys, none)
    | some (value, pmetadata) =>
      match item.ttl with
      | none =>
        (sys, some { value := value, metadata := none, shouldPersist := false })
      | some ttl =>
        let shouldPersist : Bool := pmetadata.isNone
        let metadata := pmetadata.getD (synthesizeMetadataFromValue value ttl now)
        let evaluation := evaluateTtl value metadata ttl now
        if evaluation.expired then
          let sys := storageRemoveItem sys target storageKey
          let sys := clearTtlState sys storageKey
          (sys, none)
        else if evaluation.changed then
          (sys, some { value := evaluation.value
                       metadata := some evaluation.metadata
                       shouldPersist := true })
        else
          (sys, some { value := value, metadata := some metadata
                       shouldPersist := shouldPersist })

/-- `getStore`: return the cached store cell, or lazily create it —
initial load, prune-on-load, TTL state adoption and the self-healing
persist (TTL metadata synthesized, part expired on load, or pruned). -/
def getStore (cfg : StoreCfg) (key : String) (now : Int) (sys : Sys) :
    Sys × JVal :=
  match cfg.item key with
  | none => (sys, .null)
  | some item =>
    match getLocalStorageItemKey cfg key with
    | none => (sys, item.dflt)
    | some storageKey =>
      match aget sys.itemStores storageKey with
      | some state => (sys, state)
      | none =>
        let gi := getInitialValue cfg key item storageKey now sys
        let sys := gi.1
        let initial := gi.2
        let initialState0 := (initial.map (·.value)).getD item.dflt
        let prunedInitialState := applyAutoPrune item initialState0
        let wasPruned : Bool := prunedInitialState ≠ initialState0
        let sys := { sys with itemStores := aset sys.itemStores storageKey prunedInitialState }
        let sys :=
          match item.ttl, initial.bind (·.metadata) with
          | some _, some md => setTtlState cfg sys storageKey key (some md)
          | _, _ => sys
        let shouldPersist : Bool :=
          (item.ttl.isSome && (initial.map (·.shouldPersist)).getD false &&
            (initial.bind (·.metadata)).isSome) || wasPruned
        let sys :=
          if shouldPersist then
            persistValue cfg key prunedInitialState storageKey
              (initial.bind (·.metadata)) (some .cleanup) now sys
          else sys
        (sys, prunedInitialState)

/-- `store.setState` for an item store, including the middleware
installed at creation: internal updates (storage adoption, TTL cleanup,
deletes) pass through untransformed; user mutations are pruned, a value
deep-equal to the default deletes the physical entry, anything else is
persisted. `useEqualityCheck` models the `equalityCheck: deepEqual`
option: a deep-equal update is dropped entirely. -/
def storeSetState (cfg : StoreCfg) (key storageKey : String)
    (newState : JVal) (useEqualityCheck : Bool) (now : Int) (sys : Sys) : Sys :=
  match cfg.item key with
  | none => sys
  | some item =>
    if useEqualityCheck = true ∧ aget sys.itemStores storageKey = some newState then
      sys
    else
      if (aget sys.isInternalUpdate storageKey).getD false then
        let sys := { sys with isInternalUpdate := aset sys.isInternalUpdate storageKey false }
        { sys with itemStores := aset sys.itemStores storageKey newState }
      else
        let prunedValue := applyAutoPrune item newState
        if prunedValue = item.dflt then
          let sys := storageRemoveItem sys (getItemStorageTarget item) storageKey
          let sys := clearTtlState sys storageKey
          let sys := cancelPendingSync sys storageKey
          { sys with itemStores := aset sys.itemStores storageKey item.dflt }
        else
          let sys := persistValue cfg key prunedValue storageKey none (some .mutation) now sys
          { sys with itemStores := aset sys.itemStores storageKey prunedValue }

/-! ## Facade operations -/

/-- `deleteItem`: remove the physical entry, clear TTL state, cancel any
pending deferred sync, reset the in-memory store to the default. -/
def deleteItem (cfg : StoreCfg) (key : String) (now : Int) (sys : Sys) : Sys :=
  match getLocalStorageItemKey cfg key with
  | none => sys
  | some storageKey =>
    match cfg.item key with
    | none => sys
    | some item =>
      let sys := storageRemoveItem sys (getItemStorageTarget item) storageKey
      let sys := clearTtlState sys storageKey
      let sys := cancelPendingSync sys storageKey
      let sys := { sys with isInternalUpdate := aset sys.isInternalUpdate storageKey true }
      let sys := (getStore cfg key now sys).1
      storeSetState cfg key storageKey item.dflt false now sys

/-- `set`'s argument: a value (possibly `undefined`) or an updater. -/
inductive ValueOrSetter where
  | val (v : Option JVal) : ValueOrSetter
  | updater (f : JVal → Option JVal) : ValueOrSetter

def resolveValueOrSetter : ValueOrSetter → JVal → Option JVal
  | .val v, _ => v
  | .updater f, current => f current

/-- `setItemValue` (`set`): resolve an updater against the current
value; `undefined` or a value deep-equal to the default deletes the
item; otherwise the value goes through the store (middleware prunes and
persists). -/
def setItemValue (cfg : StoreCfg) (key : String) (value : ValueOrSetter)
    (now : Int) (sys : Sys) : Sys :=
  match getLocalStorageItemKey cfg key with
  | none => sys
  | some storageKey =>
    match cfg.item key with
    | none => sys
    | some item =>
      let gs := getStore cfg key now sys
      let sys := gs.1
      let nextValue := resolveValueOrSetter value gs.2
      match nextValue with
      | none => deleteItem cfg key now sys
      | some nv =>
        if nv = item.dflt then deleteItem cfg key now sys
        else storeSetState cfg key storageKey nv true now sys

/-- `runTtlCleanup`: evaluate a physical key's TTL now; delete on whole
expiry (resetting the owning store when this instance scopes to the
key), re-persist on part expiry. Returns whether anything changed. -/
def runTtlCleanup (cfg : StoreCfg) (storageKey : String) (now : Int)
    (sys : Sys) : Sys × Bool :=
  match getItemKeyFromStorageKey storageKey with
  | none => (sys, false)
  | some itemKey =>
    match cfg.item itemKey with
    | none => (sys, false)
    | some item =>
      match item.ttl with
      | none => (sys, false)
      | some ttl =>
        let target := getStorageForKey storageKey
        match aget (sys.storage target) storageKey with
        | none => (clearTtlState sys storageKey, false)
        | some rawValue =>
          match parseStoredValue cfg item rawValue with
          | none => (sys, false)
          | some (value, pmetadata) =>
            let metadata := pmetadata.getD (synthesizeMetadataFromValue value ttl now)
            let evaluation := evaluateTtl value metadata ttl now
            if evaluation.expired then
              let sys := storageRemoveItem sys target storageKey
              let sys := clearTtlState sys storageKey
              let sys :=
                if getLocalStorageItemKey cfg itemKey = some storageKey then
                  let sys := { sys with isInternalUpdate := aset sys.isInternalUpdate storageKey true }
                  let sys := (getStore cfg itemKey now sys).1
                  storeSetState cfg itemKey storageKey item.dflt false now sys
                else sys
              (sys, true)
            else if evaluation.changed then
              if getLocalStorageItemKey cfg itemKey = some storageKey then
                let sys := { sys with isInternalUpdate := aset sys.isInternalUpdate storageKey true }
                let sys := (getStore cfg itemKey now sys).1
                let sys := storeSetState cfg itemKey storageKey evaluation.value true now sys
                let sys := persistValue cfg itemKey evaluation.value storageKey
                  (some evaluation.metadata) (some .cleanup) now sys
                (sys, true)
              else
                let sys := writeToStorage cfg sys storageKey
                  (createEnvelopePayload evaluation.value evaluation.metadata) target
                let sys := setTtlState cfg sys storageKey itemKey (some evaluation.metadata)
                (sys, true)
            else
              (setTtlState cfg sys storageKey itemKey (some metadata), false)

/-- `getValue` (`get`): TTL check first for TTL items, then the store's
current state. -/
def getValue (cfg : StoreCfg) (key : String) (now : Int) (sys : Sys) :
    Sys × JVal :=
  let storageKeyOpt := getLocalStorageItemKey cfg key
  let gs := getStore cfg key now sys
  let sys := gs.1
  let st := gs.2
  match storageKeyOpt with
  | some storageKey =>
    if ((cfg.item key).bind (·.ttl)).isSome then
      let sys := (runTtlCleanup cfg storageKey now sys).1
      (sys, (aget sys.itemStores storageKey).getD st)
    else (sys, st)
  | none => (sys, st)

/-- `deleteItemByStorageKey` (quota eviction): remove the key from both
substrates, clear TTL state, cancel pending sync, and reset the owning
store to its default when this instance scopes to the key. -/
def deleteItemByStorageKey (cfg : StoreCfg) (storageKey : String) (now : Int)
    (sys : Sys) : Sys :=
  let sys := storageRemoveItem sys .sess storageKey
  let sys := storageRemoveItem sys .loc storageKey
  let sys := clearTtlState sys storageKey
  let sys := cancelPendingSync sys storageKey
  match getItemKeyFromStorageKey storageKey with
  | none => sys
  | some itemKey =>
    if getLocalStorageItemKey cfg itemKey = some storageKey then
      match cfg.item itemKey with
      | none => sys
      | some item =>
        let sys := { sys with isInternalUpdate := aset sys.isInternalUpdate storageKey true }
        let sys := (getStore cfg itemKey now sys).1
        storeSetState cfg itemKey storageKey item.dflt false now sys
    else sys

/-- `resetStoreToDefault`: cancel the pending sync and flag an internal
update at the *swept* storage key, then `setState(default)` on the store
`getStore(itemKey)` returns. That store — and the middleware the
`setState` runs through — is bound to the item's *current scoped* key
(`getLocalStorageItemKey`), which differs from the swept key when the
swept entry belongs to another session; the middleware then reads the
internal-update flag at the scoped key, missing the flag set above. When
the item resolves to no scoped key the returned store is fresh and
unregistered, so the `setState` has no observable effect. -/
def resetStoreToDefault (cfg : StoreCfg) (storageKey : String) (now : Int)
    (sys : Sys) : Sys :=
  match getItemKeyFromStorageKey storageKey with
  | none => sys
  | some itemKey =>
    match cfg.item itemKey with
    | none => sys
    | some item =>
      let sys := cancelPendingSync sys storageKey
      let sys := { sys with isInternalUpdate := aset sys.isInternalUpdate storageKey true }
      match getLocalStorageItemKey cfg itemKey with
      | none => sys
      | some scopedKey =>
        let sys := (getStore cfg itemKey now sys).1
        storeSetState cfg itemKey scopedKey item.dflt false now sys

/-! ## `clearAllBy` -/

/-- The filter argument of `clearAllBy`. -/
structure ClearByFilter where
  sessionId : Option String := none
  allSessionIds : Bool := false
  withNoSessionId : Bool := false

/-- The `shouldRemove` decision of `clearAllBy`'s `removeKeyFromStorage`.
An empty-string `sessionId` is falsy in the source, hence never matches. -/
def clearAllByShouldRemove (filter : ClearByFilter) (storageKey : String) :
    Bool :=
  let hasSessionId := !(strStartsWith storageKey "slsm|")
  if filter.withNoSessionId then !hasSessionId
  else if filter.allSessionIds then hasSessionId
  else
    match filter.sessionId with
    | some sid =>
      if sid = "" then false
      else hasSessionId && strStartsWith storageKey ("slsm-" ++ sid)
    | none => false

def removeKeyFromStorage (cfg : StoreCfg) (filter : ClearByFilter)
    (storageKey : String) (target : StorageTarget) (now : Int) (sys : Sys) :
    Sys :=
  if clearAllByShouldRemove filter storageKey then
    let sys := storageRemoveItem sys target storageKey
    let sys := clearTtlState sys storageKey
    resetStoreToDefault cfg storageKey now sys
  else sys

/-- `clearAllBy`: sweep both substrates, removing every namespaced key
the filter matches (with delete-equivalent cleanup per key). -/
def clearAllBy (cfg : StoreCfg) (filter : ClearByFilter) (now : Int)
    (sys : Sys) : Sys :=
  let localKeys := getStorageItemKeys sys.localStore none
  let sys := localKeys.foldl
    (fun s k => removeKeyFromStorage cfg filter k .loc now s) sys
  let sessionKeys := getStorageItemKeys sys.sessionStore none
  sessionKeys.foldl
    (fun s k => removeKeyFromStorage cfg filter k .sess now s) sys

/-! ## Quota recovery engine -/

/-- `cleanupAllTtlItems`: run TTL cleanup over every namespaced key of
both substrates except the key being written; reports whether anything
was freed or changed. -/
def cleanupAllTtlItems (cfg : StoreCfg) (except : String) (now : Int)
    (sys : Sys) : Sys × Bool :=
  let sweep := fun (target : StorageTarget) (acc : Sys × Bool) =>
    let keys := getStorageItemKeys (acc.1.storage target) (some except)
    keys.foldl
      (fun (a : Sys × Bool) k =>
        let r := runTtlCleanup cfg k now a.1
        (r.1, a.2 || r.2))
      acc
  sweep .sess (sweep .loc (sys, false))

/-- `getItemPriority`: the configured priority of the item owning a
storage key, defaulting to 0. -/
def getItemPriority (cfg : StoreCfg) (itemStorageKey : String) : Int :=
  match getItemKeyFromStorageKey itemStorageKey with
  | none => 0
  | some itemKey =>
    match cfg.item itemKey with
    | none => 0
    | some item => item.priority

/-- The `sortBy` key `[priority, -size]`: ascending priority, ties by
descending stored size (size always read from the local substrate, as in
the source). -/
def evictionSortKey (cfg : StoreCfg) (sys : Sys) (k : String) : Int × Int :=
  (getItemPriority cfg k, -(((aget sys.localStore k).map rawLen).getD 0 : Int))

def lexLe (a b : Int × Int) : Bool :=
  a.1 < b.1 || (a.1 = b.1 && a.2 ≤ b.2)

def insertSorted (keyOf : String → Int × Int) (x : String) :
    List String → List String
  | [] => [x]
  | y :: ys =>
    if lexLe (keyOf x) (keyOf y) then x :: y :: ys
    else y :: insertSorted keyOf x ys

/-- `sortByPriorityAndSize`: stable ascending sort by the lexicographic
`[priority, -size]` key. -/
def sortByPriorityAndSize (cfg : StoreCfg) (sys : Sys) (keys : List String) :
    List String :=
  keys.foldr (insertSorted (evictionSortKey cfg sys)) []

/-- The session-id string interpolated into eviction prefixes; the JS
template literal stringifies a `false` session id to `"false"`. -/
def currentSessionIdString (cfg : StoreCfg) : String :=
  match cfg.getSessionId with
  | some s => s
  | none => "false"

/-- One selection of the persistent-eviction phase: the head of the
sorted different-session candidates if any, else the head of all sorted
candidates. Returns `none` when no candidate remains. -/
def selectEvictionCandidate (cfg : StoreCfg) (sys : Sys)
    (storageKey : String) : Option String :=
  let localStorageKeys := getStorageItemKeys sys.localStore (some storageKey)
  let sid := currentSessionIdString cfg
  let itemsInDifferentSessions := localStorageKeys.filter
    (fun k => !(strStartsWith k ("slsm-" ++ sid)) && !(strStartsWith k "slsm|"))
  match (sortByPriorityAndSize cfg sys itemsInDifferentSessions).head? with
  | some first => some first
  | none => (sortByPriorityAndSize cfg sys localStorageKeys).head?

/-- The `while (true)` loop of `handleQuotaExceeded`'s phase 3:
repeatedly evict the selected candidate and retry the failed write
(`tryOp`; `none` = still capacity-exceeded, `some` = success, with the
written state). Returns the final state, the evicted keys in order, and
whether the write succeeded. `fuel` bounds recursion; every iteration
deletes one local entry, so `sys.localStore.length + 1` suffices. -/
def quotaEvictionLoop (cfg : StoreCfg) (tryOp : Sys → Option Sys)
    (storageKey : String) (now : Int) :
    Nat → Sys → Sys × List String × Bool
  | 0, sys => (sys, [], false)
  | fuel + 1, sys =>
    if (getStorageItemKeys sys.localStore (some storageKey)).length = 0 then
      (sys, [], false)
    else
      match selectEvictionCandidate cfg sys storageKey with
      | none => (sys, [], false)
      | some first =>
        let sys1 := deleteItemByStorageKey cfg first now sys
        match tryOp sys1 with
        | some sys2 => (sys2, [first], true)
        | none =>
          let r := quotaEvictionLoop cfg tryOp storageKey now fuel sys1
          (r.1, first :: r.2.1, r.2.2)

/-- `handleQuotaExceeded`: TTL sweep, then wholesale tab-scoped
eviction, then the priority-ordered persistent-eviction loop; the final
`Bool` is `false` when every phase is exhausted and the original
capacity error is rethrown to the caller. -/
def handleQuotaExceeded (cfg : StoreCfg) (storageKey : String)
    (tryOp : Sys → Option Sys) (skipTtlCleanup : Bool) (now : Int)
    (sys : Sys) : Sys × Bool :=
  let phase3 := fun (sys : Sys) =>
    let r :=
      quotaEvictionLoop cfg tryOp storageKey now (sys.localStore.length + 1) sys
    (r.1, r.2.2)
  let phase2 := fun (sys : Sys) =>
    let sessionStorageKeys := getStorageItemKeys sys.sessionStore (some storageKey)
    if sessionStorageKeys.length ≠ 0 then
      let sys := sessionStorageKeys.foldl
        (fun s k => deleteItemByStorageKey cfg k now s) sys
      match tryOp sys with
      | some s => (s, true)
      | none => phase3 sys
    else phase3 sys
  if skipTtlCleanup then phase2 sys
  else
    let (sys, cleaned) := cleanupAllTtlItems cfg storageKey now sys
    if cleaned then
      match tryOp sys with
      | some s => (s, true)
      | none => phase2 sys
    else phase2 sys

/-! # Helper lemmas -/

theorem aget_aset_self {α : Type} (m : List (String × α)) (k : String) (v : α) :
    aget (aset m k v) k = some v := by
  induction m with
  | nil => simp [aset, aget]
  | cons e rest ih =>
    by_cases h : e.1 = k
    · simp [aset, h, aget]
    · simp [aset, h, aget, ih]

theorem aget_aset_ne {α : Type} (m : List (String × α)) (k k' : String) (v : α)
    (h : k ≠ k') : aget (aset m k v) k' = aget m k' := by
  induction m with
  | nil => simp [aset, aget, h]
  | cons e rest ih =>
    by_cases he : e.1 = k
    · simp [aset, he, aget, h]
    · simp [aset, he, aget, ih]

theorem aget_adel {α : Type} (m : List (String × α)) (k k' : String) :
    aget (adel m k) k' = if k = k' then none else aget m k' := by
  induction m with
  | nil => simp [adel, aget]
  | cons e rest ih =>
    simp only [adel] at ih ⊢
    rw [List.filter_cons]
    by_cases he : e.1 = k
    · rw [if_neg (by simp [he]), ih]
      by_cases hk : k = k'
      · simp [hk]
      · simp only [if_neg hk, aget,
          if_neg (show ¬ e.1 = k' from fun h => hk (he ▸ h))]
    · rw [if_pos (by simp [he])]
      by_cases hk : e.1 = k'
      · have hkk : ¬ k = k' := fun h => he (h ▸ hk)
        simp [aget, hk, hkk]
      · simp only [aget, if_neg hk]
        rw [ih]

theorem aget_adel_self {α : Type} (m : List (String × α)) (k : String) :
    aget (adel m k) k = none := by
  simp [aget_adel]

theorem storage_setStorage_same (sys : Sys) (t : StorageTarget)
    (m : List (String × Raw)) : (sys.setStorage t m).storage t = m := by
  cases t <;> rfl

theorem foldl_skip {α : Type} (l : List α) (s : Sys) :
    l.foldl (fun a _ => a) s = s := by
  induction l generalizing s with
  | nil => rfl
  | cons x rest ih => exact ih s

/-! # C1 — size-prune rejection semantics -/

/-- Identity schema (`rc_unknown`-style: every value validates to
itself). -/
def idSchema : JVal → Option JVal := fun j => some j

/-- A prune step that first shrinks (drops the short head string) and
then fails to shrink (appends an empty string). -/
def c1step : JVal → JVal := fun v =>
  match v with
  | .arr [_, b] => .arr [b]
  | .arr [b] => .arr [b, .str ""]
  | x => x

def c1s30 : String := String.mk (List.replicate 30 'a')
def c1s1030 : String := String.mk (List.replicate 1030 'a')

def c1v0 : JVal := .arr [.str c1s30, .str c1s1030]
def c1v1 : JVal := .arr [.str c1s1030]

def c1item : ItemCfg :=
  { schemaParse := idSchema, dflt := .null,
    autoPruneBySizeMaxKb := some 1, autoPruneBySizeStep := c1step }

/-- An item with both a predicate `autoPrune` and a size budget. -/
def c1pitem (f step : JVal → JVal) (kb : Nat) : ItemCfg :=
  { schemaParse := idSchema, dflt := .null, autoPrune := some f,
    autoPruneBySizeMaxKb := some kb, autoPruneBySizeStep := step }

/-- C1 counterexample: with a 1 KB budget, `c1v0` (1067 B) shrinks to
`c1v1` (1034 B, still over budget) on the first step; the second step
fails to shrink (1037 B ≥ 1034 B). The claim says the engine keeps
`c1v1`, the value immediately before the offending step; the engine
actually resets to the raw argument `c1v0`, discarding the first step's
shrinkage. -/
theorem autoPruneBySize_discards_earlier_shrinkage :
    1 * 1024 < jsonSize c1v0 ∧
    c1step c1v0 = c1v1 ∧ c1v1 ≠ c1v0 ∧
    jsonSize c1v1 < jsonSize c1v0 ∧ 1 * 1024 < jsonSize c1v1 ∧
    c1step c1v1 ≠ c1v1 ∧ jsonSize c1v1 ≤ jsonSize (c1step c1v1) ∧
    applyAutoPrune c1item c1v0 = c1v0 ∧ applyAutoPrune c1item c1v0 ≠ c1v1 := by
  decide

/-- C1 (amended): when a prune step's output fails to strictly decrease
the serialized size, the engine rejects the step's output and reverts to
the raw value it was asked to prune (`nextValue = value` in the source)
— not to the value immediately before the offending step, and not even
to the predicate-pruned loop input: shrinkage from earlier successful
size steps *and* the predicate `autoPrune` stage are both discarded.
First conjunct: the loop returns its `orig` argument on a non-shrinking
step from any state. Second conjunct: for an item with a predicate prune
`f` and a size budget, a non-shrinking first step makes `applyAutoPrune`
return the raw `v`, not `f v`. -/
theorem pruneBySizeLoop_rejects_nonshrinking_step :
    (∀ (step : JVal → JVal) (maxBytes : Nat) (orig cur : JVal) (fuel : Nat),
      maxBytes < jsonSize cur →
      step cur ≠ cur →
      jsonSize cur ≤ jsonSize (step cur) →
      pruneBySizeLoop step maxBytes orig (fuel + 1) cur = orig) ∧
    (∀ (f step : JVal → JVal) (kb : Nat) (v : JVal),
      kb * 1024 < jsonSize (f v) →
      step (f v) ≠ f v →
      jsonSize (f v) ≤ jsonSize (step (f v)) →
      applyAutoPrune (c1pitem f step kb) v = v) := by
  have hloop : ∀ (step : JVal → JVal) (maxBytes : Nat) (orig cur : JVal)
      (fuel : Nat),
      maxBytes < jsonSize cur →
      step cur ≠ cur →
      jsonSize cur ≤ jsonSize (step cur) →
      pruneBySizeLoop step maxBytes orig (fuel + 1) cur = orig := by
    intro step maxBytes orig cur fuel hover hne hsize
    unfold pruneBySizeLoop
    simp [Nat.not_le.mpr hover, hne, Nat.le_of_lt, hsize]
  refine ⟨hloop, ?_⟩
  intro f step kb v hover hne hsize
  show applyAutoPrune (c1pitem f step kb) v = v
  have h1000 : MAX_PRUNE_ITERATIONS = 999 + 1 := rfl
  simp only [applyAutoPrune, c1pitem, h1000]
  exact hloop step (kb * 1024) v (f v) 999 hover hne hsize

theorem pruneBySizeLoop_rejects_nonshrinking_step_witness :
    pruneBySizeLoop (fun _ => JVal.num 100) 0 .null 1 (.num 5) = .null ∧
    applyAutoPrune (c1pitem (fun _ => JVal.num 5) (fun _ => JVal.num 100) 0)
      (.num 7) = .num 7 :=
  ⟨pruneBySizeLoop_rejects_nonshrinking_step.1 (fun _ => JVal.num 100) 0 .null
      (.num 5) 0 (by decide) (by decide) (by decide),
    pruneBySizeLoop_rejects_nonshrinking_step.2 (fun _ => JVal.num 5)
      (fun _ => JVal.num 100) 0 (.num 7) (by decide) (by decide) (by decide)⟩

/-! # C3 — bare round-trip -/

def c3v : JVal := .obj [("_v", .bool true), ("t", .num 0)]

def c3item : ItemCfg := { schemaParse := idSchema, dflt := .null }

def c3cfg : StoreCfg := { items := [("k", c3item)] }

/-- C3 counterexample: for an item with no TTL and no compression, the
schema-valid value `{"_v": true, "t": 0}` is persisted bare, but
decoding the stored string duck-types it as a wrapped envelope and
yields the inner `true`, not the value itself. -/
theorem roundTrip_fails_on_envelope_shaped_value :
    c3item.ttl = none ∧ c3item.compress = none ∧ c3cfg.compress = none ∧
    c3item.schemaParse c3v = some c3v ∧
    aget ((writeToStorage c3cfg ({} : Sys) "slsm||k" c3v .loc).localStore)
      "slsm||k" = some (.wire c3v) ∧
    parseStoredValue c3cfg c3item (.wire c3v) =
      some (.bool true, some { updatedAt := 0, parts := none }) ∧
    JVal.bool true ≠ c3v :=
  ⟨rfl, rfl, rfl, rfl, by decide, by decide, by decide⟩

/-- C3 (amended): for an item with no TTL and no compression, writing a
schema-valid `v` persists the bare JSON serialization of `v`, and —
provided `v` does not itself parse as a wrapped envelope carrying a
timestamp or compression tag — decoding the stored string yields exactly
`v`. -/
theorem bare_roundTrip (cfg : StoreCfg) (key : String) (item : ItemCfg)
    (storageKey : String) (sys : Sys) (v : JVal)
    (hitem : cfg.item key = some item)
    (hik : getItemKeyFromStorageKey storageKey = some key)
    (hcomp : item.compress = none)
    (hgcomp : cfg.compress = none)
    (hschema : item.schemaParse v = some v)
    (henv : ∀ e, envelopeParse v = some e → e.t = none ∧ e.c = none) :
    aget ((writeToStorage cfg sys storageKey v
        (getItemStorageTarget item)).storage
        (getItemStorageTarget item)) storageKey = some (.wire v) ∧
    parseStoredValue cfg item (.wire v) = some (v, none) := by
  constructor
  · have hc : getCompressionForKey cfg item = none := by
      simp [getCompressionForKey, hcomp, hgcomp]
    cases t : getItemStorageTarget item <;>
      simp [writeToStorage, hik, hitem, hc, storageSetItem, t,
        Sys.setStorage, Sys.storage, aget_aset_self]
  · match he : envelopeParse v with
    | none =>
      simp [parseStoredValue, he, parseBare, validateOrMigrate, hschema]
    | some e =>
      obtain ⟨ht, hcn⟩ := henv e he
      simp [parseStoredValue, he, ht, hcn, parseBare, validateOrMigrate, hschema]

theorem bare_roundTrip_witness :
    aget ((writeToStorage c3cfg ({} : Sys) "slsm||k" (.str "hello")
        (getItemStorageTarget c3item)).storage
        (getItemStorageTarget c3item)) "slsm||k" = some (.wire (.str "hello")) ∧
    parseStoredValue c3cfg c3item (.wire (.str "hello")) =
      some (.str "hello", none) :=
  bare_roundTrip c3cfg "k" c3item "slsm||k" {} (.str "hello")
    rfl (by decide) rfl rfl rfl
    (by intro e he; simp [envelopeParse] at he)

/-! # C10 — empty `clearAllBy` filter is a no-op -/

/-- C10: `clearAllBy` with a filter providing none of `sessionId`,
`allSessionIds`, `withNoSessionId` removes nothing and leaves the whole
state — storages, TTL state, pending syncs, store cells — unchanged. -/
theorem clearAllBy_empty_filter_noop (cfg : StoreCfg) (now : Int) (sys : Sys) :
    clearAllBy cfg {} now sys = sys := by
  have h1 : ∀ k t s, removeKeyFromStorage cfg {} k t now s = s := by
    intro k t s
    simp [removeKeyFromStorage, clearAllByShouldRemove]
  simp [clearAllBy, h1, foldl_skip]

/-! # C9 — `clearAllBy` session-id prefix matching -/

theorem aget_isSome_aset {α : Type} (m : List (String × α)) (k k' : String)
    (v : α) (h : (aget m k').isSome = true) :
    (aget (aset m k v) k').isSome = true := by
  by_cases hk : k = k'
  · subst hk; simp [aget_aset_self]
  · rwa [aget_aset_ne _ _ _ _ hk]

theorem aget_some_mem {α : Type} (m : List (String × α)) (k : String) (v : α)
    (h : aget m k = some v) : k ∈ m.map (·.1) := by
  induction m with
  | nil => simp [aget] at h
  | cons e rest ih =>
    simp only [aget] at h
    by_cases he : e.1 = k
    · simp [he]
    · simp only [if_neg he] at h
      simp [ih h]

/-- All configured items' store cells are initialized (each logical item
has been accessed at least once), so `getStore` never runs the lazy
initial-load path during a sweep. -/
def allStoresCached (cfg : StoreCfg) (stores : List (String × JVal)) : Prop :=
  ∀ key item sk, cfg.item key = some item →
    getLocalStorageItemKey cfg key = some sk →
    (aget stores sk).isSome = true

theorem getStore_cached (cfg : StoreCfg) (key : String) (item : ItemCfg)
    (sk : String) (now : Int) (sys : Sys) (st : JVal)
    (hitem : cfg.item key = some item)
    (hsk : getLocalStorageItemKey cfg key = some sk)
    (hst : aget sys.itemStores sk = some st) :
    getStore cfg key now sys = (sys, st) := by
  simp [getStore, hitem, hsk, hst]

theorem getStore_keyNone (cfg : StoreCfg) (key : String) (item : ItemCfg)
    (now : Int) (sys : Sys)
    (hitem : cfg.item key = some item)
    (hsk : getLocalStorageItemKey cfg key = none) :
    getStore cfg key now sys = (sys, item.dflt) := by
  simp [getStore, hitem, hsk]

/-- An internal (flagged) `setState` only consumes the flag and updates
the store cell. -/
theorem storeSetState_internal (cfg : StoreCfg) (key k : String)
    (newState : JVal) (now : Int) (sys : Sys) (item : ItemCfg)
    (hit : cfg.item key = some item)
    (hflag : (aget sys.isInternalUpdate k).getD false = true) :
    storeSetState cfg key k newState false now sys =
      { sys with isInternalUpdate := aset sys.isInternalUpdate k false,
                 itemStores := aset sys.itemStores k newState } := by
  simp [storeSetState, hit, hflag]

/-- Every item's auto-prune policy fixes its own default value (the
sane configuration: pruning the default changes nothing). Without it a
sweep of another session's key can re-persist the current session's
entry through the missed-flag mutation path of `resetStoreToDefault`. -/
def prunesFixDefaults (cfg : StoreCfg) : Prop :=
  ∀ key item, cfg.item key = some item →
    applyAutoPrune item item.dflt = item.dflt

/-- Pointwise: `sys2` holds, at every storage slot, either what `sys`
held or nothing — the transition only ever removed physical entries. -/
def storageShrinks (sys sys2 : Sys) : Prop :=
  ∀ t k2, aget (sys2.storage t) k2 = aget (sys.storage t) k2 ∨
    aget (sys2.storage t) k2 = none

theorem storageShrinks_refl (sys : Sys) : storageShrinks sys sys :=
  fun _ _ => Or.inl rfl

theorem storageShrinks_trans (a b c : Sys) (h1 : storageShrinks a b)
    (h2 : storageShrinks b c) : storageShrinks a c := by
  intro t k2
  rcases h2 t k2 with h | h
  · rw [h]
    exact h1 t k2
  · exact Or.inr h

theorem aget_adel_cases {α : Type} (m : List (String × α)) (k k2 : String) :
    aget (adel m k) k2 = aget m k2 ∨ aget (adel m k) k2 = none := by
  by_cases hk : k = k2
  · subst hk
    exact Or.inr (aget_adel_self m k)
  · rw [aget_adel, if_neg hk]
    exact Or.inl rfl

theorem storageShrinks_removeItem (sys : Sys) (tg : StorageTarget)
    (k : String) : storageShrinks sys (storageRemoveItem sys tg k) := by
  intro t k2
  cases tg with
  | loc =>
    cases t with
    | loc => exact aget_adel_cases _ _ _
    | sess => exact Or.inl rfl
  | sess =>
    cases t with
    | loc => exact Or.inl rfl
    | sess => exact aget_adel_cases _ _ _

/-- `setState(default)` through the middleware when its internal flag is
unset (the user-mutation path): with the item's prune fixing the
default, the delete branch runs — the physical entry at the store's own
key is removed, and the cell resets to the default. -/
theorem storeSetState_default_user_obs (cfg : StoreCfg) (key k : String)
    (now : Int) (sys : Sys) (item : ItemCfg)
    (hit : cfg.item key = some item)
    (hflag : (aget sys.isInternalUpdate k).getD false = false)
    (hdflt : applyAutoPrune item item.dflt = item.dflt) :
    storageShrinks sys (storeSetState cfg key k item.dflt false now sys) ∧
    (storeSetState cfg key k item.dflt false now sys).itemStores =
      aset sys.itemStores k item.dflt := by
  constructor
  · intro t k2
    cases hT : getItemStorageTarget item with
    | loc =>
      cases t with
      | loc =>
        have hs : (storeSetState cfg key k item.dflt false now sys).storage
            .loc = adel (sys.storage .loc) k := by
          simp [storeSetState, hit, hflag, hdflt, hT, storageRemoveItem,
            clearTtlState, cancelPendingSync, Sys.storage, Sys.setStorage]
        rw [hs]
        exact aget_adel_cases _ _ _
      | sess =>
        have hs : (storeSetState cfg key k item.dflt false now sys).storage
            .sess = sys.storage .sess := by
          simp [storeSetState, hit, hflag, hdflt, hT, storageRemoveItem,
            clearTtlState, cancelPendingSync, Sys.storage, Sys.setStorage]
        rw [hs]
        exact Or.inl rfl
    | sess =>
      cases t with
      | loc =>
        have hs : (storeSetState cfg key k item.dflt false now sys).storage
            .loc = sys.storage .loc := by
          simp [storeSetState, hit, hflag, hdflt, hT, storageRemoveItem,
            clearTtlState, cancelPendingSync, Sys.storage, Sys.setStorage]
        rw [hs]
        exact Or.inl rfl
      | sess =>
        have hs : (storeSetState cfg key k item.dflt false now sys).storage
            .sess = adel (sys.storage .sess) k := by
          simp [storeSetState, hit, hflag, hdflt, hT, storageRemoveItem,
            clearTtlState, cancelPendingSync, Sys.storage, Sys.setStorage]
        rw [hs]
        exact aget_adel_cases _ _ _
  · cases hT : getItemStorageTarget item <;>
      simp [storeSetState, hit, hflag, hdflt, hT, storageRemoveItem,
        clearTtlState, cancelPendingSync, Sys.storage, Sys.setStorage]

theorem resetStoreToDefault_spec (cfg : StoreCfg) (k : String) (now : Int)
    (sys : Sys) (h : allStoresCached cfg sys.itemStores)
    (hfix : prunesFixDefaults cfg) :
    storageShrinks sys (resetStoreToDefault cfg k now sys) ∧
    allStoresCached cfg (resetStoreToDefault cfg k now sys).itemStores := by
  cases hik : getItemKeyFromStorageKey k with
  | none =>
    simp only [resetStoreToDefault, hik]
    exact ⟨storageShrinks_refl _, h⟩
  | some itemKey =>
    cases hit : cfg.item itemKey with
    | none =>
      simp only [resetStoreToDefault, hik, hit]
      exact ⟨storageShrinks_refl _, h⟩
    | some item =>
      cases hsk : getLocalStorageItemKey cfg itemKey with
      | none =>
        simp only [resetStoreToDefault, hik, hit, hsk]
        refine ⟨?_, ?_⟩
        · intro t k2
          left
          cases t <;> rfl
        · exact h
      | some sk =>
        have hsome := h itemKey item sk hit hsk
        obtain ⟨st, hst⟩ := Option.isSome_iff_exists.mp hsome
        have hgs := getStore_cached cfg itemKey item sk now
          ({ cancelPendingSync sys k with
             isInternalUpdate :=
               aset (cancelPendingSync sys k).isInternalUpdate k true }) st
          hit hsk hst
        by_cases hfl : (aget ({ cancelPendingSync sys k with
            isInternalUpdate :=
              aset (cancelPendingSync sys k).isInternalUpdate k
                true } : Sys).isInternalUpdate sk).getD false = true
        · have hss := storeSetState_internal cfg itemKey sk item.dflt now
            ({ cancelPendingSync sys k with
               isInternalUpdate :=
                 aset (cancelPendingSync sys k).isInternalUpdate k true })
            item hit hfl
          simp only [resetStoreToDefault, hik, hit, hsk, hgs, hss]
          refine ⟨?_, ?_⟩
          · intro t k2
            left
            cases t <;> rfl
          · intro key2 item2 sk2 h2 h3
            exact aget_isSome_aset _ _ _ _ (h key2 item2 sk2 h2 h3)
        · simp only [Bool.not_eq_true] at hfl
          obtain ⟨huser1, huser2⟩ := storeSetState_default_user_obs cfg
            itemKey sk now
            ({ cancelPendingSync sys k with
               isInternalUpdate :=
                 aset (cancelPendingSync sys k).isInternalUpdate k true })
            item hit hfl (hfix itemKey item hit)
          simp only [resetStoreToDefault, hik, hit, hsk, hgs]
          refine ⟨?_, ?_⟩
          · intro t k2
            rcases huser1 t k2 with hcase | hcase
            · rw [hcase]
              left
              cases t <;> rfl
            · exact Or.inr hcase
          · rw [huser2]
            intro key2 item2 sk2 h2 h3
            exact aget_isSome_aset _ _ _ _ (h key2 item2 sk2 h2 h3)

theorem removeKeyFromStorage_spec (cfg : StoreCfg) (f : ClearByFilter)
    (k : String) (target : StorageTarget) (now : Int) (sys : Sys)
    (h : allStoresCached cfg sys.itemStores)
    (hfix : prunesFixDefaults cfg) :
    storageShrinks sys (removeKeyFromStorage cfg f k target now sys) ∧
    (clearAllByShouldRemove f k = true →
      aget ((removeKeyFromStorage cfg f k target now sys).storage target) k =
        none) ∧
    allStoresCached cfg
      (removeKeyFromStorage cfg f k target now sys).itemStores := by
  by_cases hsr : clearAllByShouldRemove f k = true
  · have hcach2 : allStoresCached cfg
        (clearTtlState (storageRemoveItem sys target k) k).itemStores := by
      show allStoresCached cfg (storageRemoveItem sys target k).itemStores
      cases target <;> exact h
    obtain ⟨hRs, hRc⟩ := resetStoreToDefault_spec cfg k now
      (clearTtlState (storageRemoveItem sys target k) k) hcach2 hfix
    have hmid : ∀ t,
        (clearTtlState (storageRemoveItem sys target k) k).storage t =
        (storageRemoveItem sys target k).storage t := by
      intro t
      cases t <;> rfl
    refine ⟨?_, ?_, ?_⟩
    · simp only [removeKeyFromStorage, hsr, if_pos]
      refine storageShrinks_trans _ _ _ ?_ hRs
      refine storageShrinks_trans _ _ _ (storageShrinks_removeItem sys target k) ?_
      intro t k2
      rw [hmid t]
      exact Or.inl rfl
    · intro _
      simp only [removeKeyFromStorage, hsr, if_pos]
      rcases hRs target k with hcase | hcase
      · rw [hcase, hmid target]
        rw [show (storageRemoveItem sys target k).storage target =
          adel (sys.storage target) k from storage_setStorage_same _ _ _]
        exact aget_adel_self _ _
      · exact hcase
    · simp only [removeKeyFromStorage, hsr, if_pos]
      exact hRc
  · have hid : removeKeyFromStorage cfg f k target now sys = sys := by
      simp only [removeKeyFromStorage, if_neg hsr]
    rw [hid]
    exact ⟨storageShrinks_refl _, fun hc => absurd hc hsr, h⟩

/-- Effect of one of `clearAllBy`'s two sweep loops: every swept key the
filter matches ends up absent from the swept storage, and the sweep only
ever removes entries. -/
theorem sweep_spec (cfg : StoreCfg) (f : ClearByFilter) (now : Int)
    (target : StorageTarget) (hfix : prunesFixDefaults cfg) :
    ∀ (keys : List String) (sys : Sys),
      allStoresCached cfg sys.itemStores →
      (∀ k2, k2 ∈ keys → clearAllByShouldRemove f k2 = true →
        aget ((keys.foldl
          (fun s k => removeKeyFromStorage cfg f k target now s) sys).storage
            target) k2 = none) ∧
      storageShrinks sys
        (keys.foldl (fun s k => removeKeyFromStorage cfg f k target now s)
          sys) ∧
      allStoresCached cfg
        (keys.foldl (fun s k => removeKeyFromStorage cfg f k target now s)
          sys).itemStores := by
  intro keys
  induction keys with
  | nil =>
    intro sys h
    refine ⟨?_, storageShrinks_refl _, h⟩
    intro k2 hk2
    simp at hk2
  | cons k0 rest ih =>
    intro sys h
    obtain ⟨s1, s2, s3⟩ := removeKeyFromStorage_spec cfg f k0 target now sys
      h hfix
    obtain ⟨i1, i2, i3⟩ := ih (removeKeyFromStorage cfg f k0 target now sys) s3
    refine ⟨?_, ?_, ?_⟩
    · intro k2 hk2 hk2sr
      rw [List.foldl_cons]
      rcases List.mem_cons.mp hk2 with hq | hq
      · subst hq
        rcases i2 target k2 with hcase | hcase
        · rw [hcase]
          exact s2 hk2sr
        · exact hcase
      · exact i1 k2 hq hk2sr
    · rw [List.foldl_cons]
      exact storageShrinks_trans _ _ _ s1 i2
    · rw [List.foldl_cons]
      exact i3

/-- The removal decision of `clearAllBy {sessionId: s}` (nonempty `s`):
a key is removed iff it is session-scoped and `slsm-<s>` is a string
prefix of it. -/
theorem clearAllByShouldRemove_sessionId (s k : String) (hs : s ≠ "") :
    clearAllByShouldRemove { sessionId := some s } k =
      (!(strStartsWith k "slsm|") && strStartsWith k ("slsm-" ++ s)) := by
  simp [clearAllByShouldRemove, hs]

/-- C9 (amended): for a nonempty session id `s`, `clearAllBy {sessionId:
s}` removes from both substrates every namespaced (`slsm`-prefixed)
session-scoped entry whose physical key starts with `slsm-` followed by
`s` as a *string prefix* — not by exact session-identifier equality, so
a key of session `xy` is removed when `s = "x"`. Stated for instances
whose configured item stores are initialized (`allStoresCached`, pinning
`getStore` to its cached path during the sweep) and whose items'
auto-prune policies fix their defaults (`prunesFixDefaults`): without
the latter, sweeping another session's key re-persists the current
session's entry through the missed-flag mutation path of
`resetStoreToDefault`, and the removal rule fails. -/
theorem clearAllBy_sessionId_removes_matching_keys (cfg : StoreCfg)
    (s : String) (now : Int) (sys : Sys) (k : String)
    (hcached : allStoresCached cfg sys.itemStores)
    (hfix : prunesFixDefaults cfg)
    (hs : s ≠ "")
    (hns : strStartsWith k "slsm" = true)
    (hnsb : strStartsWith k "slsm|" = false)
    (hk : strStartsWith k ("slsm-" ++ s) = true) :
    aget ((clearAllBy cfg { sessionId := some s } now sys).localStore) k = none ∧
    aget ((clearAllBy cfg { sessionId := some s } now sys).sessionStore) k = none := by
  have hsr : clearAllByShouldRemove { sessionId := some s } k = true := by
    rw [clearAllByShouldRemove_sessionId s k hs, hnsb, hk]
    rfl
  obtain ⟨l1, l2, l3⟩ := sweep_spec cfg { sessionId := some s } now .loc hfix
    (getStorageItemKeys sys.localStore none) sys hcached
  set sys1 := (getStorageItemKeys sys.localStore none).foldl
    (fun s1 k1 => removeKeyFromStorage cfg { sessionId := some s } k1 .loc now s1)
    sys with hsys1
  obtain ⟨m1, m2, m3⟩ := sweep_spec cfg { sessionId := some s } now .sess hfix
    (getStorageItemKeys sys1.sessionStore none) sys1 l3
  have hclear : clearAllBy cfg { sessionId := some s } now sys =
      (getStorageItemKeys sys1.sessionStore none).foldl
        (fun s1 k1 =>
          removeKeyFromStorage cfg { sessionId := some s } k1 .sess now s1)
        sys1 := by
    simp only [clearAllBy, hsys1]
  have hloc1 : aget (sys1.storage .loc) k = none := by
    cases hak : aget (sys.storage .loc) k with
    | none =>
      rcases l2 .loc k with hcase | hcase
      · rw [hcase]
        exact hak
      · exact hcase
    | some v =>
      have hmem : k ∈ getStorageItemKeys sys.localStore none := by
        apply List.mem_filter.mpr
        refine ⟨aget_some_mem _ _ _ hak, ?_⟩
        simp [hns]
      exact l1 k hmem hsr
  constructor
  · show aget ((clearAllBy cfg { sessionId := some s } now sys).storage .loc)
      k = none
    rw [hclear]
    rcases m2 .loc k with hcase | hcase
    · rw [hcase]
      exact hloc1
    · exact hcase
  · show aget ((clearAllBy cfg { sessionId := some s } now sys).storage .sess)
      k = none
    rw [hclear]
    cases hak : aget (sys1.storage .sess) k with
    | none =>
      rcases m2 .sess k with hcase | hcase
      · rw [hcase]
        exact hak
      · exact hcase
    | some v =>
      have hmem : k ∈ getStorageItemKeys sys1.sessionStore none := by
        apply List.mem_filter.mpr
        refine ⟨aget_some_mem _ _ _ hak, ?_⟩
        simp [hns]
      exact m1 k hmem hsr

/-- C9 counterexample: for `s = ""`, the key `slsm-x||a` starts with
`"slsm-" ++ s`, yet `clearAllBy {sessionId: ""}` removes nothing (the
source tests the session id for truthiness, and the empty string is
falsy), refuting the claim's universal removal rule at `s = ""`. -/
theorem clearAllBy_empty_sessionId_ignores_matching_key :
    strStartsWith "slsm-x||a" ("slsm-" ++ "") = true ∧
    clearAllBy { items := [] } { sessionId := some "" } 0
      { localStore := [("slsm-x||a", .wire .null)] } =
      ({ localStore := [("slsm-x||a", .wire .null)] } : Sys) :=
  ⟨by decide, by decide⟩

/-- C9 witness: with current state holding `slsm-xy||b` (session `xy`)
and filter session id `"x"`, the entry is removed — prefix matching, not
exact equality. -/
theorem clearAllBy_sessionId_removes_matching_keys_witness :
    aget ((clearAllBy { items := [] } { sessionId := some "x" } 0
      { localStore := [("slsm-xy||b", .wire .null)] } : Sys).localStore)
      "slsm-xy||b" = none ∧
    aget ((clearAllBy { items := [] } { sessionId := some "x" } 0
      { localStore := [("slsm-xy||b", .wire .null)] } : Sys).sessionStore)
      "slsm-xy||b" = none :=
  clearAllBy_sessionId_removes_matching_keys { items := [] } "x" 0
    { localStore := [("slsm-xy||b", .wire .null)] } "slsm-xy||b"
    (by intro key item sk hitem hsk; simp [StoreCfg.item] at hitem)
    (by intro key item hitem; simp [StoreCfg.item] at hitem)
    (by decide) (by decide) (by decide) (by decide)

/-! # C8 — decode failures fall back to the default, never thrown -/

def c8item : ItemCfg := { schemaParse := idSchema, dflt := .null }

def c8cfg : StoreCfg := { items := [("k", c8item)] }

def c8sys : Sys := { localStore := [("slsm||k", .malformed 3)] }

/-- C8: when the stored raw string fails to decode — it is malformed
JSON, fails decompression, or fails schema validation with no usable
migration — `get` returns the item's configured default (the model is
total, so no failure escapes to the caller: every decode failure is
`none` and absorbed). The last three conjuncts exhibit the three failure
families producing a decode failure. -/
theorem decode_failure_falls_back_to_default (cfg : StoreCfg) (key : String)
    (item : ItemCfg) (storageKey : String) (raw : Raw) (now : Int) (sys : Sys)
    (hitem : cfg.item key = some item)
    (hsk : getLocalStorageItemKey cfg key = some storageKey)
    (hik : getItemKeyFromStorageKey storageKey = some key)
    (hcoh : getStorageForKey storageKey = getItemStorageTarget item)
    (hstored : aget (sys.storage (getItemStorageTarget item)) storageKey = some raw)
    (hfail : parseStoredValue cfg item raw = none)
    (huncached : aget sys.itemStores storageKey = none)
    (hdflt : applyAutoPrune item item.dflt = item.dflt) :
    (getValue cfg key now sys).2 = item.dflt ∧
    (∀ n, parseStoredValue cfg item (.malformed n) = none) ∧
    (∀ (c : CompressCfg) (s2 : String),
      getCompressionForKey cfg item = some c →
      c.decompressFn s2 = none →
      parseStoredValue cfg item
        (.wire (.obj [("_v", .str s2), ("c", .str c.format)])) = none) ∧
    (∀ j, item.migrate = none → item.schemaParse j = none →
      envelopeParse j = none →
      parseStoredValue cfg item (.wire j) = none) := by
  refine ⟨?_, fun n => rfl, ?_, ?_⟩
  · have hgi : getInitialValue cfg key item storageKey now sys = (sys, none) := by
      simp [getInitialValue, hstored, hfail]
    have hgs : getStore cfg key now sys =
        ({ sys with itemStores := aset sys.itemStores storageKey item.dflt },
          item.dflt) := by
      cases httl : item.ttl with
      | none => simp [getStore, hitem, hsk, huncached, hgi, httl, hdflt]
      | some t => simp [getStore, hitem, hsk, huncached, hgi, httl, hdflt]
    cases httl : item.ttl with
    | none =>
      simp [getValue, hsk, hgs, hitem, httl]
    | some t =>
      have hst2 : aget
          ((Sys.storage { sys with
              itemStores := aset sys.itemStores storageKey item.dflt })
            (getStorageForKey storageKey)) storageKey = some raw := by
        rw [hcoh]
        cases ht : getItemStorageTarget item <;>
          · have := hstored
            rw [ht] at this
            simpa [Sys.storage] using this
      have hrun : runTtlCleanup cfg storageKey now
          { sys with itemStores := aset sys.itemStores storageKey item.dflt } =
          ({ sys with itemStores := aset sys.itemStores storageKey item.dflt },
            false) := by
        simp [runTtlCleanup, hik, hitem, httl, hst2, hfail]
      simp [getValue, hsk, hgs, hitem, httl, hrun, aget_aset_self]
  · intro c s2 hc hdec
    have henv : envelopeParse (.obj [("_v", .str s2), ("c", .str c.format)]) =
        some { t := none, p := none, v := .str s2, c := some c.format } := rfl
    simp [parseStoredValue, henv, hc, hdec]
  · intro j hm hs he
    simp [parseStoredValue, he, parseBare, validateOrMigrate, hs,
      tryMigrateValue, hm]

theorem decode_failure_falls_back_to_default_witness :
    (getValue c8cfg "k" 0 c8sys).2 = JVal.null :=
  (decode_failure_falls_back_to_default c8cfg "k" c8item "slsm||k"
    (.malformed 3) 0 c8sys rfl rfl (by decide) (by decide) (by decide) rfl
    rfl rfl).1

/-! # C6 — default-equals-delete -/

theorem storageRemoveItem_storage_same (sys : Sys) (t : StorageTarget)
    (k : String) :
    (storageRemoveItem sys t k).storage t = adel (sys.storage t) k := by
  cases t <;> rfl

theorem storageRemoveItem_ttlStates (sys : Sys) (t : StorageTarget)
    (k : String) : (storageRemoveItem sys t k).ttlStates = sys.ttlStates := by
  cases t <;> rfl

theorem storageRemoveItem_pending (sys : Sys) (t : StorageTarget) (k : String) :
    (storageRemoveItem sys t k).pendingSyncOperations =
      sys.pendingSyncOperations := by
  cases t <;> rfl

theorem storageRemoveItem_isInternalUpdate (sys : Sys) (t : StorageTarget)
    (k : String) :
    (storageRemoveItem sys t k).isInternalUpdate = sys.isInternalUpdate := by
  cases t <;> rfl

theorem storageRemoveItem_itemStores (sys : Sys) (t : StorageTarget)
    (k : String) : (storageRemoveItem sys t k).itemStores = sys.itemStores := by
  cases t <;> rfl

theorem storage_ignores_itemStores (sys : Sys)
    (m : List (String × JVal)) (t : StorageTarget) :
    (Sys.storage { sys with itemStores := m } t) = sys.storage t := by
  cases t <;> rfl

theorem storage_ignores_flagsAndStores (sys : Sys)
    (m : List (String × JVal)) (fl : List (String × Bool)) (t : StorageTarget) :
    (Sys.storage { sys with itemStores := m, isInternalUpdate := fl } t) =
      sys.storage t := by
  cases t <;> rfl

/-- `get` on a state whose cell holds the default and whose physical
entry is absent returns the default. -/
theorem getValue_of_default_state (cfg : StoreCfg) (key : String)
    (item : ItemCfg) (storageKey : String) (now2 : Int) (sysC : Sys)
    (hitem : cfg.item key = some item)
    (hsk : getLocalStorageItemKey cfg key = some storageKey)
    (hik : getItemKeyFromStorageKey storageKey = some key)
    (hcoh : getStorageForKey storageKey = getItemStorageTarget item)
    (hcell : aget sysC.itemStores storageKey = some item.dflt)
    (hS : aget (sysC.storage (getItemStorageTarget item)) storageKey = none) :
    (getValue cfg key now2 sysC).2 = item.dflt := by
  have hgs := getStore_cached cfg key item storageKey now2 sysC item.dflt
    hitem hsk hcell
  cases httl : item.ttl with
  | none => simp [getValue, hsk, hgs, hitem, httl]
  | some t =>
    have hst2 : aget (sysC.storage (getStorageForKey storageKey)) storageKey =
        none := by rw [hcoh]; exact hS
    have hrun : runTtlCleanup cfg storageKey now2 sysC =
        (clearTtlState sysC storageKey, false) := by
      simp [runTtlCleanup, hik, hitem, httl, hst2]
    simp [getValue, hsk, hgs, hitem, httl, hrun, clearTtlState, hcell]

/-- Observations after the tail of `deleteItem` (the store-reset step)
starting from a state where the physical entry, TTL state and pending
sync are already gone and the internal-update flag is set. -/
theorem deleteTail_spec (cfg : StoreCfg) (key : String) (item : ItemCfg)
    (storageKey : String) (now : Int) (sysB : Sys)
    (hitem : cfg.item key = some item)
    (hsk : getLocalStorageItemKey cfg key = some storageKey)
    (hdflt : applyAutoPrune item item.dflt = item.dflt)
    (hSn : aget (sysB.storage (getItemStorageTarget item)) storageKey = none)
    (hT : aget sysB.ttlStates storageKey = none)
    (hP : aget sysB.pendingSyncOperations storageKey = none)
    (hF : (aget sysB.isInternalUpdate storageKey).getD false = true) :
    (aget ((storeSetState cfg key storageKey item.dflt false now
        ((getStore cfg key now sysB).1)).storage (getItemStorageTarget item))
        storageKey = none) ∧
    aget (storeSetState cfg key storageKey item.dflt false now
        ((getStore cfg key now sysB).1)).ttlStates storageKey = none ∧
    aget (storeSetState cfg key storageKey item.dflt false now
        ((getStore cfg key now sysB).1)).pendingSyncOperations storageKey = none ∧
    aget (storeSetState cfg key storageKey item.dflt false now
        ((getStore cfg key now sysB).1)).itemStores storageKey =
      some item.dflt := by
  cases hc : aget sysB.itemStores storageKey with
  | some st =>
    have hgs := getStore_cached cfg key item storageKey now sysB st hitem hsk hc
    have hss := storeSetState_internal cfg key storageKey item.dflt now sysB
      item hitem hF
    rw [hgs]
    simp only [hss]
    refine ⟨?_, hT, hP, ?_⟩
    · rw [show (Sys.storage { sysB with
          isInternalUpdate := aset sysB.isInternalUpdate storageKey false,
          itemStores := aset sysB.itemStores storageKey item.dflt } (getItemStorageTarget item)) =
          sysB.storage (getItemStorageTarget item) from by
          cases getItemStorageTarget item <;> rfl]
      exact hSn
    · exact aget_aset_self _ _ _
  | none =>
    have hgi : getInitialValue cfg key item storageKey now sysB = (sysB, none) := by
      simp [getInitialValue, hSn]
    have hgs : getStore cfg key now sysB =
        ({ sysB with itemStores := aset sysB.itemStores storageKey item.dflt },
          item.dflt) := by
      cases httl : item.ttl with
      | none => simp [getStore, hitem, hsk, hc, hgi, httl, hdflt]
      | some t => simp [getStore, hitem, hsk, hc, hgi, httl, hdflt]
    have hF2 : (aget ({ sysB with
        itemStores := aset sysB.itemStores storageKey item.dflt } : Sys).isInternalUpdate
        storageKey).getD false = true := hF
    have hss := storeSetState_internal cfg key storageKey item.dflt now
      ({ sysB with itemStores := aset sysB.itemStores storageKey item.dflt })
      item hitem hF2
    rw [hgs]
    simp only [hss]
    refine ⟨?_, hT, hP, ?_⟩
    · rw [show (Sys.storage { sysB with
          itemStores := aset (aset sysB.itemStores storageKey item.dflt)
            storageKey item.dflt,
          isInternalUpdate := aset sysB.isInternalUpdate storageKey false }
          (getItemStorageTarget item)) =
          sysB.storage (getItemStorageTarget item) from by
          cases getItemStorageTarget item <;> rfl]
      exact hSn
    · exact aget_aset_self _ _ _

theorem storage_ignores_pending (sys : Sys) (p : List (String × PendingSync))
    (t : StorageTarget) :
    (Sys.storage { sys with pendingSyncOperations := p } t) = sys.storage t := by
  cases t <;> rfl

theorem storage_ignores_ttl (sys : Sys) (ts : List (String × TtlState))
    (t : StorageTarget) :
    (Sys.storage { sys with ttlStates := ts } t) = sys.storage t := by
  cases t <;> rfl

theorem storage_ignores_flags (sys : Sys) (fl : List (String × Bool))
    (t : StorageTarget) :
    (Sys.storage { sys with isInternalUpdate := fl } t) = sys.storage t := by
  cases t <;> rfl

/-- `delete` leaves no physical entry, no TTL state, no pending sync,
and the store cell at the default. -/
theorem deleteItem_spec (cfg : StoreCfg) (key : String) (item : ItemCfg)
    (storageKey : String) (now : Int) (sys : Sys)
    (hitem : cfg.item key = some item)
    (hsk : getLocalStorageItemKey cfg key = some storageKey)
    (hdflt : applyAutoPrune item item.dflt = item.dflt) :
    aget ((deleteItem cfg key now sys).storage (getItemStorageTarget item))
      storageKey = none ∧
    aget (deleteItem cfg key now sys).ttlStates storageKey = none ∧
    aget (deleteItem cfg key now sys).pendingSyncOperations storageKey = none ∧
    aget (deleteItem cfg key now sys).itemStores storageKey = some item.dflt := by
  have h4 := deleteTail_spec cfg key item storageKey now
    ({ cancelPendingSync (clearTtlState
        (storageRemoveItem sys (getItemStorageTarget item) storageKey)
        storageKey) storageKey with
      isInternalUpdate :=
        aset (cancelPendingSync (clearTtlState
          (storageRemoveItem sys (getItemStorageTarget item) storageKey)
          storageKey) storageKey).isInternalUpdate storageKey true })
    hitem hsk hdflt
    (by
      rw [storage_ignores_flags]
      show aget ((Sys.storage { clearTtlState
        (storageRemoveItem sys (getItemStorageTarget item) storageKey)
        storageKey with
        pendingSyncOperations := _ } (getItemStorageTarget item))) storageKey = none
      rw [storage_ignores_pending]
      show aget ((Sys.storage { storageRemoveItem sys (getItemStorageTarget item)
        storageKey with ttlStates := _ } (getItemStorageTarget item))) storageKey = none
      rw [storage_ignores_ttl, storageRemoveItem_storage_same, aget_adel_self])
    (by
      show aget (adel (storageRemoveItem sys (getItemStorageTarget item)
        storageKey).ttlStates storageKey) storageKey = none
      exact aget_adel_self _ _)
    (by
      show aget (adel (clearTtlState (storageRemoveItem sys
        (getItemStorageTarget item) storageKey)
        storageKey).pendingSyncOperations storageKey) storageKey = none
      exact aget_adel_self _ _)
    (by simp [aget_aset_self])
  simpa only [deleteItem, hsk, hitem] using h4

/-- C6: for a resolved value that is `undefined` or deep-equal to the
item's configured default, `set(item, value)` is observably equivalent
to `delete(item)`: both leave no physical entry for the key, clear its
TTL state, cancel any pending deferred write, and make a subsequent
`get` return the default. (`applyAutoPrune item item.dflt = item.dflt`
pins prune-on-load to a fixed point of the default, ruling out the
pathological config whose pruning rewrites the default value itself.) -/
theorem set_default_equals_delete (cfg : StoreCfg) (key : String)
    (item : ItemCfg) (storageKey : String) (value : ValueOrSetter)
    (now : Int) (sys : Sys)
    (hitem : cfg.item key = some item)
    (hsk : getLocalStorageItemKey cfg key = some storageKey)
    (hik : getItemKeyFromStorageKey storageKey = some key)
    (hcoh : getStorageForKey storageKey = getItemStorageTarget item)
    (hdflt : applyAutoPrune item item.dflt = item.dflt)
    (hres : resolveValueOrSetter value (getStore cfg key now sys).2 = none ∨
      resolveValueOrSetter value (getStore cfg key now sys).2 = some item.dflt) :
    (aget ((setItemValue cfg key value now sys).storage
        (getItemStorageTarget item)) storageKey = none ∧
     aget (setItemValue cfg key value now sys).ttlStates storageKey = none ∧
     aget (setItemValue cfg key value now sys).pendingSyncOperations
       storageKey = none ∧
     (∀ n2, (getValue cfg key n2 (setItemValue cfg key value now sys)).2 =
       item.dflt)) ∧
    (aget ((deleteItem cfg key now sys).storage
        (getItemStorageTarget item)) storageKey = none ∧
     aget (deleteItem cfg key now sys).ttlStates storageKey = none ∧
     aget (deleteItem cfg key now sys).pendingSyncOperations storageKey = none ∧
     (∀ n2, (getValue cfg key n2 (deleteItem cfg key now sys)).2 =
       item.dflt)) := by
  have hset : setItemValue cfg key value now sys =
      deleteItem cfg key now ((getStore cfg key now sys).1) := by
    rcases hres with h | h <;> simp [setItemValue, hsk, hitem, h]
  have hD1 := deleteItem_spec cfg key item storageKey now
    ((getStore cfg key now sys).1) hitem hsk hdflt
  have hD2 := deleteItem_spec cfg key item storageKey now sys hitem hsk hdflt
  refine ⟨⟨?_, ?_, ?_, ?_⟩, ⟨hD2.1, hD2.2.1, hD2.2.2.1, ?_⟩⟩
  · rw [hset]; exact hD1.1
  · rw [hset]; exact hD1.2.1
  · rw [hset]; exact hD1.2.2.1
  · intro n2
    rw [hset]
    exact getValue_of_default_state cfg key item storageKey n2 _ hitem hsk hik
      hcoh hD1.2.2.2 hD1.1
  · intro n2
    exact getValue_of_default_state cfg key item storageKey n2 _ hitem hsk hik
      hcoh hD2.2.2.2 hD2.1

theorem set_default_equals_delete_witness :
    (aget ((setItemValue c8cfg "k" (.val (some .null)) 0 {}).storage
        (getItemStorageTarget c8item)) "slsm||k" = none ∧
     aget (setItemValue c8cfg "k" (.val (some .null)) 0 {}).ttlStates
       "slsm||k" = none ∧
     aget (setItemValue c8cfg "k" (.val (some .null)) 0
       {}).pendingSyncOperations "slsm||k" = none ∧
     (∀ n2, (getValue c8cfg "k" n2
       (setItemValue c8cfg "k" (.val (some .null)) 0 {})).2 = c8item.dflt)) ∧
    (aget ((deleteItem c8cfg "k" 0 {}).storage
        (getItemStorageTarget c8item)) "slsm||k" = none ∧
     aget (deleteItem c8cfg "k" 0 {}).ttlStates "slsm||k" = none ∧
     aget (deleteItem c8cfg "k" 0 {}).pendingSyncOperations "slsm||k" = none ∧
     (∀ n2, (getValue c8cfg "k" n2 (deleteItem c8cfg "k" 0 {})).2 =
       c8item.dflt)) :=
  set_default_equals_delete c8cfg "k" c8item "slsm||k" (.val (some .null)) 0 {}
    rfl rfl (by decide) (by decide) rfl (Or.inr rfl)

/-! # C4 — whole-item TTL expiry -/

def c4item (sp : JVal → Option JVal) (dflt : JVal) (m : Nat) : ItemCfg :=
  { schemaParse := sp, dflt := dflt, ttl := some (.whole m) }

def c4cfg (sp : JVal → Option JVal) (dflt : JVal) (m : Nat) : StoreCfg :=
  { items := [("k", c4item sp dflt m)] }

/-- The state after `set("k", v)` at time `t0` on a fresh store with a
whole-item TTL of `m` minutes. -/
def c4sys (sp : JVal → Option JVal) (dflt v : JVal) (m : Nat) (t0 : Int) :
    Sys :=
  setItemValue (c4cfg sp dflt m) "k" (.val (some v)) t0 {}

/-- The explicit form of that state: the envelope persists the write
time only at minute granularity (`toEnvelopeMinutes t0`), while the
in-memory TTL state keeps the exact `t0`. -/
def c4S1 (_dflt v : JVal) (t0 : Int) (m : Nat) : Sys :=
  { localStore := [("slsm||k",
      .wire (.obj [("_v", v), ("t", .num (toEnvelopeMinutes t0))]))],
    sessionStore := [],
    ttlStates := [("slsm||k",
      { key := "k", updatedAt := t0, parts := none,
        timerAt := some (t0 + getTtlDurationMs (.whole m)) })],
    itemStores := [("slsm||k", v)],
    isInternalUpdate := [],
    pendingSyncOperations := [],
    writeLog := [("slsm||k", .obj [("_v", v), ("t", .num (toEnvelopeMinutes t0))])] }

theorem c4sys_eq (sp : JVal → Option JVal) (dflt v : JVal) (m : Nat) (t0 : Int)
    (hv : v ≠ dflt) : c4sys sp dflt v m t0 = c4S1 dflt v t0 m := by
  have hvd : (v = dflt) = False := eq_false hv
  have hdv : (dflt = v) = False := eq_false (fun h => hv h.symm)
  simp [c4sys, setItemValue, getStore, getInitialValue, storeSetState,
    persistValue, performWriteCore, writeToStorage, setTtlState,
    scheduleNextTtlCheck, createEnvelopePayload, getSyncDelayForKey,
    applyAutoPrune, storageSetItem, cancelPendingSync, clearTtlState,
    aget, aset, adel, Sys.storage, Sys.setStorage, getItemStorageTarget,
    getLocalStorageItemKey, getItemKeyFromStorageKey, StoreCfg.item,
    c4cfg, c4item, hvd, hdv, resolveValueOrSetter, getStorageForKey,
    c4S1, splitDB, getTtlDurationMs, TtlOption.minutes, getCompressionForKey]

/-- C4 counterexample: 1-minute TTL item written at `t0 = 90000` ms
(1.5 min past the epoch, which rounds up to minute 2 in the envelope).
At `t = 150000 = t0 + d`, the claim demands the default; `get` still
returns the stored value, because expiry is evaluated against the
rounded persisted timestamp (120000), not against `t0`. -/
theorem ttl_expiry_ignores_exact_write_time :
    (150000 : Int) - 90000 ≥ getTtlDurationMs (.whole 1) ∧
    (getValue (c4cfg idSchema .null 1) "k" 150000
      (c4sys idSchema .null (.bool true) 1 90000)).2 = .bool true ∧
    JVal.bool true ≠ JVal.null :=
  ⟨by decide, by decide, by decide⟩

/-- C4 (amended): the effective write time of a whole-item TTL entry is
`t0` rounded to envelope minute granularity; with `t0' :=
fromEnvelopeMinutes (toEnvelopeMinutes t0)`, `get` returns the stored
value at every time with `t - t0' < d` and at any time with `t - t0' ≥
d` deletes the physical entry and returns the configured default. -/
theorem whole_ttl_expiry_at_rounded_threshold (sp : JVal → Option JVal)
    (dflt v : JVal) (m : Nat) (t0 t : Int)
    (hsp : sp v = some v) (hv : v ≠ dflt) :
    aget (c4sys sp dflt v m t0).localStore "slsm||k" =
      some (.wire (.obj [("_v", v), ("t", .num (toEnvelopeMinutes t0))])) ∧
    (t - fromEnvelopeMinutes (toEnvelopeMinutes t0) <
        getTtlDurationMs (.whole m) →
      (getValue (c4cfg sp dflt m) "k" t (c4sys sp dflt v m t0)).2 = v) ∧
    (t - fromEnvelopeMinutes (toEnvelopeMinutes t0) ≥
        getTtlDurationMs (.whole m) →
      (getValue (c4cfg sp dflt m) "k" t (c4sys sp dflt v m t0)).2 = dflt ∧
      aget ((getValue (c4cfg sp dflt m) "k" t
        (c4sys sp dflt v m t0)).1.localStore) "slsm||k" = none) := by
  rw [c4sys_eq sp dflt v m t0 hv]
  have hparse : parseStoredValue (c4cfg sp dflt m) (c4item sp dflt m)
      (.wire (.obj [("_v", v), ("t", .num (toEnvelopeMinutes t0))])) =
      some (v, some { updatedAt := fromEnvelopeMinutes (toEnvelopeMinutes t0),
                      parts := none }) := by
    simp [parseStoredValue, envelopeParse, jlookup, parseWrapped,
      validateOrMigrate, c4item, hsp, partsFromEnvelope]
  simp only [c4cfg, c4item] at hparse
  refine ⟨by simp [c4S1, aget], ?_, ?_⟩
  · intro h1
    have hexp : ¬ ((m : Int) * MS_PER_MINUTE ≤
        t - fromEnvelopeMinutes (toEnvelopeMinutes t0)) := by
      simpa [getTtlDurationMs, TtlOption.minutes] using not_le.mpr h1
    simp [getValue, getStore, runTtlCleanup, getLocalStorageItemKey,
      getItemKeyFromStorageKey, StoreCfg.item, c4cfg, c4item, c4S1, splitDB,
      getStorageForKey, strIncludes, hasSub, Sys.storage, aget, aset, adel,
      hparse, evaluateTtl, hexp, setTtlState, scheduleNextTtlCheck,
      getTtlDurationMs, TtlOption.minutes]
  · intro h2
    have hexp : ((m : Int) * MS_PER_MINUTE ≤
        t - fromEnvelopeMinutes (toEnvelopeMinutes t0)) := by
      simpa [getTtlDurationMs, TtlOption.minutes] using h2
    constructor <;>
    simp [getValue, getStore, runTtlCleanup, getLocalStorageItemKey,
      getItemKeyFromStorageKey, StoreCfg.item, c4cfg, c4item, c4S1, splitDB,
      getStorageForKey, strIncludes, hasSub, Sys.storage, aget, aset, adel,
      hparse, evaluateTtl, hexp, setTtlState, scheduleNextTtlCheck,
      getTtlDurationMs, TtlOption.minutes, storageRemoveItem, clearTtlState,
      cancelPendingSync, Sys.setStorage, storeSetState, applyAutoPrune]

theorem whole_ttl_expiry_at_rounded_threshold_witness :
    (getValue (c4cfg idSchema .null 1) "k" 150000
      (c4sys idSchema .null (.bool true) 1 90000)).2 = .bool true :=
  (whole_ttl_expiry_at_rounded_threshold idSchema .null (.bool true) 1
    90000 150000 rfl (by decide)).2.1 (by decide)

/-! # C5 — partitioned TTL -/

/-- Part identifiers of an object value: its field names. -/
def splitObjParts : JVal → List String := fun v =>
  match v with
  | .obj fs => fs.map (·.1)
  | _ => []

/-- Remove a named part: drop the field. -/
def removeObjPart : JVal → String → JVal := fun v p =>
  match v with
  | .obj fs => .obj (fs.filter (fun e => e.1 ≠ p))
  | x => x

def c5item (sp : JVal → Option JVal) (dflt : JVal) (m : Nat) : ItemCfg :=
  { schemaParse := sp, dflt := dflt,
    ttl := some (.split m splitObjParts removeObjPart) }

def c5cfg (sp : JVal → Option JVal) (dflt : JVal) (m : Nat) : StoreCfg :=
  { items := [("k", c5item sp dflt m)] }

def c5v1 : JVal := .obj [("A", .null), ("B", .null)]
def c5v2 : JVal := .obj [("A", .null), ("B", .null), ("C", .null)]

/-- Write parts `{A, B}` at `t0`, rewrite with `{A, B, C}` at `t1`. -/
def c5sys (sp : JVal → Option JVal) (dflt : JVal) (m : Nat) (t0 t1 : Int) :
    Sys :=
  setItemValue (c5cfg sp dflt m) "k" (.val (some c5v2)) t1
    (setItemValue (c5cfg sp dflt m) "k" (.val (some c5v1)) t0 {})

def c5env1 (t0 : Int) : JVal :=
  .obj [("_v", c5v1), ("t", .num (toEnvelopeMinutes t0)),
        ("p", .obj [("A", .num (toEnvelopeMinutes t0)),
                    ("B", .num (toEnvelopeMinutes t0))])]

def c5env2 (t0 t1 : Int) : JVal :=
  .obj [("_v", c5v2), ("t", .num (toEnvelopeMinutes t1)),
        ("p", .obj [("A", .num (toEnvelopeMinutes t0)),
                    ("B", .num (toEnvelopeMinutes t0)),
                    ("C", .num (toEnvelopeMinutes t1))])]

/-- The state after the two writes: the rewrite preserved the existing
stamps of `A` and `B` (`t0`) and stamped only the new part `C` with
`t1`. -/
def c5S2 (m : Nat) (t0 t1 : Int) : Sys :=
  { localStore := [("slsm||k", .wire (c5env2 t0 t1))],
    sessionStore := [],
    ttlStates := [("slsm||k",
      { key := "k", updatedAt := t1,
        parts := some [("A", t0), ("B", t0), ("C", t1)],
        timerAt := some (t0 +
          getTtlDurationMs (.split m splitObjParts removeObjPart)) })],
    itemStores := [("slsm||k", c5v2)],
    isInternalUpdate := [],
    pendingSyncOperations := [],
    writeLog := [("slsm||k", c5env1 t0), ("slsm||k", c5env2 t0 t1)] }

theorem c5sys_eq (sp : JVal → Option JVal) (dflt : JVal) (m : Nat)
    (t0 t1 : Int) (hd1 : c5v1 ≠ dflt) (hd2 : c5v2 ≠ dflt) (ht01 : t0 ≤ t1) :
    c5sys sp dflt m t0 t1 = c5S2 m t0 t1 := by
  have hvd1 : (c5v1 = dflt) = False := eq_false hd1
  have hvd2 : (c5v2 = dflt) = False := eq_false hd2
  have hdv1 : (dflt = c5v1) = False := eq_false (fun h => hd1 h.symm)
  have hdv2 : (dflt = c5v2) = False := eq_false (fun h => hd2 h.symm)
  simp only [c5v1, c5v2] at hvd1 hvd2 hdv1 hdv2
  have hmin : min t0 t1 = t0 := min_eq_left ht01
  simp [c5sys, setItemValue, getStore, getInitialValue, storeSetState,
    persistValue, performWriteCore, writeToStorage, setTtlState,
    scheduleNextTtlCheck, createEnvelopePayload, getSyncDelayForKey,
    applyAutoPrune, storageSetItem, cancelPendingSync, clearTtlState,
    aget, aset, adel, Sys.storage, Sys.setStorage, getItemStorageTarget,
    getLocalStorageItemKey, getItemKeyFromStorageKey, StoreCfg.item,
    c5cfg, c5item, hvd1, hvd2, resolveValueOrSetter, getStorageForKey,
    c5S2, splitDB, getTtlDurationMs, TtlOption.minutes, getCompressionForKey,
    dedupKeys, splitObjParts, c5v1, c5v2, c5env1, c5env2, hmin, hdv1, hdv2]

theorem fromTo_aligned (q : Int) :
    fromEnvelopeMinutes (toEnvelopeMinutes (60000 * q)) = 60000 * q := by
  unfold fromEnvelopeMinutes toEnvelopeMinutes
  rw [Int.fdiv_eq_ediv _ (by norm_num)]
  omega

/-- C5 counterexample: partitioned item, `d = 2` minutes, parts `{A, B}`
written at `t0 = 30000` and `{A, B, C}` at `t0 + d/2 = 90000`. At
`t0 + d = 150000` the claim says `A` and `B` have expired; `get` still
returns the full value because part stamps are persisted at minute
granularity (30000 rounds up to 60000). -/
theorem partitioned_ttl_expiry_ignores_exact_write_time :
    (150000 : Int) =
      30000 + getTtlDurationMs (.split 2 splitObjParts removeObjPart) ∧
    (getValue (c5cfg idSchema .null 2) "k" 150000
      (c5sys idSchema .null 2 30000 90000)).2 = c5v2 ∧
    c5v2 ≠ .obj [("C", .null)] :=
  ⟨by decide, by decide, by decide⟩

/-- C5 (amended): each write recomputes the part set, stamps only new
parts with "now" and preserves existing stamps (visible in the TTL state
after the rewrite: `A, B ↦ t0`, `C ↦ t1`), and drops the stamps of
parts no longer present (last conjunct: a further write of `{C}` alone
at any `t2` leaves exactly `C ↦ t1` — `A` and `B`'s stamps are gone and
`C`'s is preserved, not refreshed); at the envelope's minute
granularity, here pinned by minute-aligned `t0 = 60000q` and `d = 2·mh`
minutes with the rewrite at `t1 = t0 + d/2`, `A` and `B` expire exactly
at `t0 + d` while `C` survives until `t1 + d = t0 + 3d/2`, after which
the value is the empty object. -/
theorem partitioned_ttl_preserves_part_stamps (sp : JVal → Option JVal)
    (dflt : JVal) (q : Int) (mh : Nat) (t : Int)
    (hsp2 : sp c5v2 = some c5v2)
    (hd1 : c5v1 ≠ dflt) (hd2 : c5v2 ≠ dflt) :
    aget (c5sys sp dflt (2 * mh) (60000 * q)
        (60000 * q + 60000 * (mh : Int))).ttlStates "slsm||k" =
      some { key := "k", updatedAt := 60000 * q + 60000 * (mh : Int),
             parts := some [("A", 60000 * q), ("B", 60000 * q),
                            ("C", 60000 * q + 60000 * (mh : Int))],
             timerAt := some (60000 * q + getTtlDurationMs
               (.split (2 * mh) splitObjParts removeObjPart)) } ∧
    (t < 60000 * q + ((2 * mh : Nat) : Int) * MS_PER_MINUTE →
      (getValue (c5cfg sp dflt (2 * mh)) "k" t
        (c5sys sp dflt (2 * mh) (60000 * q)
          (60000 * q + 60000 * (mh : Int)))).2 = c5v2) ∧
    (60000 * q + ((2 * mh : Nat) : Int) * MS_PER_MINUTE ≤ t →
      t < 60000 * q + 60000 * (mh : Int) +
        ((2 * mh : Nat) : Int) * MS_PER_MINUTE →
      (getValue (c5cfg sp dflt (2 * mh)) "k" t
        (c5sys sp dflt (2 * mh) (60000 * q)
          (60000 * q + 60000 * (mh : Int)))).2 = .obj [("C", .null)]) ∧
    (60000 * q + 60000 * (mh : Int) +
        ((2 * mh : Nat) : Int) * MS_PER_MINUTE ≤ t →
      (getValue (c5cfg sp dflt (2 * mh)) "k" t
        (c5sys sp dflt (2 * mh) (60000 * q)
          (60000 * q + 60000 * (mh : Int)))).2 = .obj []) ∧
    (JVal.obj [("C", JVal.null)] ≠ dflt →
      ∀ t2 : Int,
        aget (setItemValue (c5cfg sp dflt (2 * mh)) "k"
            (.val (some (JVal.obj [("C", JVal.null)]))) t2
            (c5sys sp dflt (2 * mh) (60000 * q)
              (60000 * q + 60000 * (mh : Int)))).ttlStates "slsm||k" =
          some { key := "k", updatedAt := t2,
                 parts := some [("C", 60000 * q + 60000 * (mh : Int))],
                 timerAt := some (60000 * q + 60000 * (mh : Int) +
                   getTtlDurationMs
                     (.split (2 * mh) splitObjParts removeObjPart)) }) := by
  have ht01 : (60000 * q : Int) ≤ 60000 * q + 60000 * (mh : Int) := by omega
  have hS : c5sys sp dflt (2 * mh) (60000 * q)
      (60000 * q + 60000 * (mh : Int)) =
      c5S2 (2 * mh) (60000 * q) (60000 * q + 60000 * (mh : Int)) :=
    c5sys_eq sp dflt (2 * mh) _ _ hd1 hd2 ht01
  rw [hS]
  have halign1 : fromEnvelopeMinutes (toEnvelopeMinutes (60000 * q)) =
      60000 * q := fromTo_aligned q
  have halign2 : fromEnvelopeMinutes (toEnvelopeMinutes
      (60000 * q + 60000 * (mh : Int))) = 60000 * q + 60000 * (mh : Int) := by
    have := fromTo_aligned (q + (mh : Int))
    rw [show 60000 * (q + (mh : Int)) = 60000 * q + 60000 * (mh : Int) from by
      ring] at this
    exact this
  have hsp2l := hsp2
  simp only [c5v2] at hsp2l
  have hparse : parseStoredValue (c5cfg sp dflt (2 * mh))
      (c5item sp dflt (2 * mh))
      (.wire (c5env2 (60000 * q) (60000 * q + 60000 * (mh : Int)))) =
      some (c5v2, some
        { updatedAt := 60000 * q + 60000 * (mh : Int),
          parts := some [("A", 60000 * q), ("B", 60000 * q),
                         ("C", 60000 * q + 60000 * (mh : Int))] }) := by
    simp [parseStoredValue, envelopeParse, jlookup, parseWrapped,
      validateOrMigrate, c5item, hsp2, partsFromEnvelope, c5env2, c5v2,
      halign1, halign2, asNumRecord, hsp2l]
  simp only [c5cfg, c5item] at hparse
  refine ⟨?_, ?_, ?_, ?_, ?_⟩
  · simp [c5S2, aget]
  · intro hb
    have hA : t - 60000 * q < 2 * (mh : Int) * MS_PER_MINUTE := by
      unfold MS_PER_MINUTE at *
      push_cast at *
      omega
    have hC : t - (60000 * q + 60000 * (mh : Int)) <
        2 * (mh : Int) * MS_PER_MINUTE := by
      unfold MS_PER_MINUTE at *
      push_cast at *
      omega
    simp [getValue, getStore, runTtlCleanup, getLocalStorageItemKey,
      getItemKeyFromStorageKey, StoreCfg.item, c5cfg, c5item, c5S2, splitDB,
      getStorageForKey, strIncludes, hasSub, Sys.storage, aget, aset, adel,
      hparse, evaluateTtl, hA, hC, setTtlState, scheduleNextTtlCheck,
      getTtlDurationMs, TtlOption.minutes]
  · intro hc1 hc2
    have hA : 2 * (mh : Int) * MS_PER_MINUTE ≤ t - 60000 * q := by
      unfold MS_PER_MINUTE at *
      push_cast at *
      omega
    have hC : t - (60000 * q + 60000 * (mh : Int)) <
        2 * (mh : Int) * MS_PER_MINUTE := by
      unfold MS_PER_MINUTE at *
      push_cast at *
      omega
    simp [getValue, getStore, runTtlCleanup, getLocalStorageItemKey,
      getItemKeyFromStorageKey, StoreCfg.item, c5cfg, c5item, c5S2, splitDB,
      getStorageForKey, strIncludes, hasSub, Sys.storage, aget, aset, adel,
      hparse, evaluateTtl, hA, hC, setTtlState, scheduleNextTtlCheck,
      getTtlDurationMs, TtlOption.minutes, removeObjPart, c5v2,
      storeSetState, persistValue, performWriteCore, writeToStorage,
      createEnvelopePayload, storageSetItem, cancelPendingSync,
      getSyncDelayForKey, applyAutoPrune, Sys.setStorage,
      getItemStorageTarget, getCompressionForKey, storageRemoveItem,
      clearTtlState]
  · intro hdd
    have hA : 2 * (mh : Int) * MS_PER_MINUTE ≤ t - 60000 * q := by
      unfold MS_PER_MINUTE at *
      push_cast at *
      omega
    have hC : 2 * (mh : Int) * MS_PER_MINUTE ≤
        t - (60000 * q + 60000 * (mh : Int)) := by
      unfold MS_PER_MINUTE at *
      push_cast at *
      omega
    simp [getValue, getStore, runTtlCleanup, getLocalStorageItemKey,
      getItemKeyFromStorageKey, StoreCfg.item, c5cfg, c5item, c5S2, splitDB,
      getStorageForKey, strIncludes, hasSub, Sys.storage, aget, aset, adel,
      hparse, evaluateTtl, hA, hC, setTtlState, scheduleNextTtlCheck,
      getTtlDurationMs, TtlOption.minutes, removeObjPart, c5v2,
      storeSetState, persistValue, performWriteCore, writeToStorage,
      createEnvelopePayload, storageSetItem, cancelPendingSync,
      getSyncDelayForKey, applyAutoPrune, Sys.setStorage,
      getItemStorageTarget, getCompressionForKey, storageRemoveItem,
      clearTtlState]
  · intro hd3 t2
    have hvd3 : (JVal.obj [("C", JVal.null)] = dflt) = False := eq_false hd3
    simp [setItemValue, getStore, getLocalStorageItemKey,
      getItemKeyFromStorageKey, StoreCfg.item, c5cfg, c5item, c5S2, splitDB,
      aget, aset, adel, resolveValueOrSetter, storeSetState, applyAutoPrune,
      persistValue, getSyncDelayForKey, performWriteCore, writeToStorage,
      createEnvelopePayload, storageSetItem, setTtlState,
      scheduleNextTtlCheck, getTtlDurationMs, TtlOption.minutes, dedupKeys,
      splitObjParts, cancelPendingSync, clearTtlState, Sys.storage,
      Sys.setStorage, getItemStorageTarget, getCompressionForKey, hvd3,
      c5v2, c5env2]

/-! # C7 — debounce coalescing -/

/-- Event-loop step: a due debounce timer fires (its callback runs when
the current time has reached the scheduled instant); idle callbacks and
not-yet-due timers do nothing. -/
def fireDueSync (cfg : StoreCfg) (storageKey : String) (t : Int) (sys : Sys) :
    Sys :=
  match aget sys.pendingSyncOperations storageKey with
  | some p =>
    match p.fireAt with
    | some fa => if fa ≤ t then firePendingSync cfg storageKey sys else sys
    | none => sys
  | none => sys

/-- A burst of mutations against one key: before each mutation any timer
that came due in the meantime fires, then the mutation is persisted. -/
def runDebounceBurst (cfg : StoreCfg) (key storageKey : String) :
    List (Int × JVal) → Sys → Sys
  | [], sys => sys
  | (t, v) :: rest, sys =>
    let sys := fireDueSync cfg storageKey t sys
    let sys := persistValue cfg key v storageKey none (some .mutation) t sys
    runDebounceBurst cfg key storageKey rest sys

/-- Each mutation of the burst arrives strictly less than the debounce
window `w` after the previous one. -/
def chainGapsB (w : Nat) : Int → List (Int × JVal) → Bool
  | _, [] => true
  | prev, (t, _) :: rest => decide (t < prev + (w : Int)) && chainGapsB w t rest

/-- Last timed mutation of a burst, with a default for the empty tail. -/
def burstLast (tp : Int) (vp : JVal) : List (Int × JVal) → Int × JVal
  | [] => (tp, vp)
  | (t, v) :: rest => burstLast t v rest

def c7item : ItemCfg :=
  { schemaParse := idSchema, dflt := .null,
    syncDelayItem := some (.debounce 100 none) }

def c7cfg : StoreCfg := { items := [("k", c7item)] }

theorem adel_aset {α : Type} (m : List (String × α)) (k : String) (v : α) :
    adel (aset m k v) k = adel m k := by
  induction m with
  | nil => simp [aset, adel]
  | cons hd tl ih =>
    obtain ⟨k', v'⟩ := hd
    by_cases h : k' = k
    · subst h
      simp [aset, adel]
    · simp [aset, adel, h] at ih ⊢
      exact ih

theorem adel_idem {α : Type} (m : List (String × α)) (k : String) :
    adel (adel m k) k = adel m k := by
  simp [adel, List.filter_filter]

theorem setStorage_writeLog (sys : Sys) (t : StorageTarget)
    (m : List (String × Raw)) : (sys.setStorage t m).writeLog = sys.writeLog := by
  cases t <;> rfl

theorem setStorage_pendingOps (sys : Sys) (t : StorageTarget)
    (m : List (String × Raw)) :
    (sys.setStorage t m).pendingSyncOperations = sys.pendingSyncOperations := by
  cases t <;> rfl

/-- A pending debounce entry: fire time, payload and the anchored time
the burst's first mutation was scheduled. -/
def debouncePend (fa : Int) (v : JVal) (f : Int) : PendingSync :=
  { fireAt := some fa, isIdleCallback := false, value := v,
    metadata := none, source := some .mutation, firstScheduledAt := f }

/-- Replace the pending-operations map of a state. -/
def setPendingOps (sys : Sys) (m : List (String × PendingSync)) : Sys :=
  { sys with pendingSyncOperations := m }

/-- During a tight burst every mutation lands before the pending timer is
due: the pending entry is replaced (last value, window restarted at the
mutation's time) while `firstScheduledAt` stays anchored, and nothing is
written. -/
theorem debounce_burst_invariant (cfg : StoreCfg) (key storageKey : String)
    (item : ItemCfg) (w : Nat) (f : Int)
    (base : List (String × PendingSync))
    (hitem : cfg.item key = some item)
    (httl : item.ttl = none)
    (hsd : getSyncDelayForKey cfg item = some (.debounce w none)) :
    ∀ (ms : List (Int × JVal)) (sys : Sys) (tp : Int) (vp : JVal),
      sys.pendingSyncOperations = aset (adel base storageKey) storageKey
        (debouncePend (tp + (w : Int)) vp f) →
      chainGapsB w tp ms = true →
      runDebounceBurst cfg key storageKey ms sys =
        setPendingOps sys (aset (adel base storageKey)
          storageKey (debouncePend ((burstLast tp vp ms).1 + (w : Int))
            (burstLast tp vp ms).2 f)) := by
  intro ms
  induction ms with
  | nil =>
    intro sys tp vp hpend hg
    simp only [runDebounceBurst, burstLast]
    conv_rhs => rw [← hpend]
    rfl
  | cons hd rest ih =>
    intro sys tp vp hpend hg
    obtain ⟨t, v⟩ := hd
    simp only [chainGapsB, Bool.and_eq_true, decide_eq_true_eq] at hg
    obtain ⟨hg1, hg2⟩ := hg
    have hnotle : ¬((tp + (w : Int)) ≤ t) := by omega
    have hfire : fireDueSync cfg storageKey t sys = sys := by
      simp [fireDueSync, hpend, aget_aset_self, hnotle, debouncePend]
    have hstep : persistValue cfg key v storageKey none (some .mutation) t sys =
        setPendingOps sys (aset (adel base storageKey)
          storageKey (debouncePend (t + (w : Int)) v f)) := by
      simp [persistValue, hitem, httl, hsd, effectiveMaxWait, cancelPendingSync,
        hpend, aget_aset_self, adel_aset, adel_idem, debouncePend, setPendingOps]
    simp only [runDebounceBurst]
    rw [hfire, hstep]
    rw [ih _ t v rfl hg2]
    simp [burstLast, setPendingOps]

/-- C7: for an item with a debounce sync-delay of window `w` (no
max-wait), a burst of mutations each less than `w` apart performs no
physical write; after the burst one pending entry holds the last value
with the timer restarted at `lastTime + w` and `firstScheduledAt`
anchored to the first mutation; when the quiet window elapses exactly
one physical write of the last value occurs and the pending entry is
consumed. With a max-wait ceiling `W` (still unexpired), a new mutation
replaces the pending payload and schedules at `min (now + w)
(firstScheduledAt + W)` — the ceiling stays anchored to the burst's
first mutation. -/
theorem debounce_coalesces_to_single_write
    (cfg : StoreCfg) (key storageKey : String) (item : ItemCfg) (w : Nat)
    (t1 : Int) (v1 : JVal) (ms : List (Int × JVal)) (sys : Sys)
    (hitem : cfg.item key = some item)
    (httl : item.ttl = none)
    (hsd : getSyncDelayForKey cfg item = some (.debounce w none))
    (hik : getItemKeyFromStorageKey storageKey = some key)
    (hcomp : getCompressionForKey cfg item = none)
    (hnp : aget sys.pendingSyncOperations storageKey = none)
    (hg : chainGapsB w t1 ms = true) :
    (runDebounceBurst cfg key storageKey ((t1, v1) :: ms) sys).writeLog =
      sys.writeLog ∧
    aget (runDebounceBurst cfg key storageKey ((t1, v1) :: ms)
        sys).pendingSyncOperations storageKey =
      some (debouncePend ((burstLast t1 v1 ms).1 + (w : Int))
        (burstLast t1 v1 ms).2 t1) ∧
    (∀ t : Int, (burstLast t1 v1 ms).1 + (w : Int) ≤ t →
      (fireDueSync cfg storageKey t (runDebounceBurst cfg key storageKey
          ((t1, v1) :: ms) sys)).writeLog =
        sys.writeLog ++ [(storageKey, (burstLast t1 v1 ms).2)] ∧
      aget (fireDueSync cfg storageKey t (runDebounceBurst cfg key storageKey
          ((t1, v1) :: ms) sys)).pendingSyncOperations storageKey = none) ∧
    (∀ (cfg2 : StoreCfg) (key2 storageKey2 : String) (item2 : ItemCfg)
        (W : Nat) (f t : Int) (v : JVal) (p : PendingSync) (sys2 : Sys),
      cfg2.item key2 = some item2 →
      item2.ttl = none →
      getSyncDelayForKey cfg2 item2 = some (.debounce w (some W)) →
      0 < W →
      aget sys2.pendingSyncOperations storageKey2 = some p →
      p.firstScheduledAt = f →
      t - f < (W : Int) →
      aget (persistValue cfg2 key2 v storageKey2 none (some .mutation) t
          sys2).pendingSyncOperations storageKey2 =
        some (debouncePend (min (t + (w : Int)) (f + (W : Int))) v f)) := by
  have hfire1 : fireDueSync cfg storageKey t1 sys = sys := by
    simp [fireDueSync, hnp]
  have hp1 : persistValue cfg key v1 storageKey none (some .mutation) t1 sys =
      setPendingOps sys
        (aset (adel sys.pendingSyncOperations storageKey) storageKey
          (debouncePend (t1 + (w : Int)) v1 t1)) := by
    simp [persistValue, hitem, httl, hsd, effectiveMaxWait, cancelPendingSync,
      hnp, debouncePend, setPendingOps]
  have hburst : runDebounceBurst cfg key storageKey ((t1, v1) :: ms) sys =
      setPendingOps sys
        (aset (adel sys.pendingSyncOperations storageKey) storageKey
          (debouncePend ((burstLast t1 v1 ms).1 + (w : Int))
            (burstLast t1 v1 ms).2 t1)) := by
    simp only [runDebounceBurst]
    rw [hfire1, hp1]
    rw [debounce_burst_invariant cfg key storageKey item w t1
      sys.pendingSyncOperations hitem httl hsd ms _ t1 v1 rfl hg]
    rfl
  refine ⟨?_, ?_, ?_, ?_⟩
  · rw [hburst]
    rfl
  · rw [hburst]
    exact aget_aset_self _ _ _
  · intro t hle
    rw [hburst]
    have hfa : fireDueSync cfg storageKey t
        (setPendingOps sys
          (aset (adel sys.pendingSyncOperations storageKey) storageKey
            (debouncePend ((burstLast t1 v1 ms).1 + (w : Int))
              (burstLast t1 v1 ms).2 t1))) =
        performWriteCore cfg key item (burstLast t1 v1 ms).2 none storageKey
          (setPendingOps sys
            (aset (adel sys.pendingSyncOperations storageKey) storageKey
              (debouncePend ((burstLast t1 v1 ms).1 + (w : Int))
                (burstLast t1 v1 ms).2 t1))) := by
      simp [fireDueSync, aget_aset_self, hle, firePendingSync, hik, hitem,
        debouncePend, setPendingOps]
    rw [hfa]
    constructor
    · simp [performWriteCore, httl, writeToStorage, hik, hitem, hcomp,
        storageSetItem, clearTtlState, setStorage_writeLog, setPendingOps,
        debouncePend]
    · simp [performWriteCore, httl, writeToStorage, hik, hitem, hcomp,
        storageSetItem, clearTtlState, setStorage_pendingOps, aget_adel_self,
        setPendingOps, debouncePend]
  · intro cfg2 key2 storageKey2 item2 W f t v p sys2 hitem2 httl2 hsd2 hW hp
      hf hlt
    have hne : ¬(W = 0) := by omega
    have hnle : ¬((W : Int) - (t - f) ≤ 0) := by omega
    simp [persistValue, hitem2, httl2, hsd2, effectiveMaxWait, hne,
      cancelPendingSync, hp, hf, hnle, aget_aset_self, debouncePend]
    omega

/-- C7 witness: window 100, mutations at 0/50/120 with values a/b/c —
letting the timer fire at 220 yields the single write `("slsm||k", "c")`
from an empty log. -/
theorem debounce_coalesces_to_single_write_witness :
    (fireDueSync c7cfg "slsm||k" 220
        (runDebounceBurst c7cfg "k" "slsm||k"
          [(0, .str "a"), (50, .str "b"), (120, .str "c")] {})).writeLog =
      [("slsm||k", .str "c")] :=
  ((debounce_coalesces_to_single_write c7cfg "k" "slsm||k" c7item 100 0
      (.str "a") [(50, .str "b"), (120, .str "c")] {} rfl rfl rfl rfl rfl rfl
      (by decide)).2.2.1 220 (by decide)).1

/-! # C2 — quota eviction candidate selection -/

/-- The candidate pool the code prefers: local namespaced keys carrying
neither the current session's prefix nor the reserved `slsm|` prefix
(the latter covers unscoped and session-storage keys). -/
def evictionCandidatePool (cfg : StoreCfg) (sys : Sys)
    (storageKey : String) : List String :=
  (getStorageItemKeys sys.localStore (some storageKey)).filter
    (fun k => !(strStartsWith k ("slsm-" ++ currentSessionIdString cfg)) &&
      !(strStartsWith k "slsm|"))

/-- Candidate selection as the specification words it: prefer every
entry from a different or unscoped session, that is, everything not
carrying the current session's prefix. -/
def specSelectEvictionCandidate (cfg : StoreCfg) (sys : Sys)
    (storageKey : String) : Option String :=
  let localStorageKeys := getStorageItemKeys sys.localStore (some storageKey)
  let differentOrUnscoped := localStorageKeys.filter
    (fun k => !(strStartsWith k ("slsm-" ++ currentSessionIdString cfg)))
  match (sortByPriorityAndSize cfg sys differentOrUnscoped).head? with
  | some first => some first
  | none => (sortByPriorityAndSize cfg sys localStorageKeys).head?

def c2item (p : Int) (ig : Bool) : ItemCfg :=
  { schemaParse := idSchema, dflt := .null, priority := p,
    ignoreSessionId := ig }

def c2xcfg : StoreCfg :=
  { items := [("a", c2item 1 false), ("c", c2item 5 true)],
    getSessionId := some "x" }

def c2xsys : Sys :=
  { localStore := [("slsm-x||a", .wire (.str "aa")),
                   ("slsm||c", .wire (.str "cc"))] }

def c2cfgS : StoreCfg :=
  { items := [("low", c2item 1 false), ("med", c2item 5 false),
              ("high", c2item 10 false)],
    getSessionId := some "s1" }

def c2sysS : Sys :=
  { localStore := [("slsm-s1||low", .wire (.str "l")),
                   ("slsm-s1||med", .wire (.str "m")),
                   ("slsm-s1||high", .wire (.str "h"))],
    itemStores := [("slsm-s1||low", .str "l"), ("slsm-s1||med", .str "m"),
                   ("slsm-s1||high", .str "h")] }

def c2s1 : Sys := deleteItemByStorageKey c2cfgS "slsm-s1||low" 0 c2sysS
def c2s2 : Sys := deleteItemByStorageKey c2cfgS "slsm-s1||med" 0 c2s1
def c2s3 : Sys := deleteItemByStorageKey c2cfgS "slsm-s1||high" 0 c2s2

theorem lexLe_refl (a : Int × Int) : lexLe a a = true := by
  simp [lexLe]

theorem lexLe_trans (a b c : Int × Int) (h1 : lexLe a b = true)
    (h2 : lexLe b c = true) : lexLe a c = true := by
  simp [lexLe] at *
  omega

theorem lexLe_total (a b : Int × Int) :
    lexLe a b = true ∨ lexLe b a = true := by
  simp [lexLe]
  omega

theorem mem_insertSorted (keyOf : String → Int × Int) (x a : String) :
    ∀ l : List String, a ∈ insertSorted keyOf x l → a = x ∨ a ∈ l := by
  intro l
  induction l with
  | nil =>
    intro h
    simp only [insertSorted, List.mem_singleton] at h
    exact Or.inl h
  | cons y ys ih =>
    intro h
    simp only [insertSorted] at h
    split at h
    · rcases List.mem_cons.mp h with h1 | h1
      · exact Or.inl h1
      · exact Or.inr h1
    · rcases List.mem_cons.mp h with h1 | h1
      · exact Or.inr (h1 ▸ List.mem_cons_self y ys)
      · rcases ih h1 with h2 | h2
        · exact Or.inl h2
        · exact Or.inr (List.mem_cons_of_mem y h2)

theorem mem_insertSorted_of (keyOf : String → Int × Int) (x a : String) :
    ∀ l : List String, a = x ∨ a ∈ l → a ∈ insertSorted keyOf x l := by
  intro l
  induction l with
  | nil =>
    intro h
    rcases h with h | h
    · simp [insertSorted, h]
    · simp at h
  | cons y ys ih =>
    intro h
    simp only [insertSorted]
    split
    · rcases h with h | h
      · exact h ▸ List.mem_cons_self _ _
      · exact List.mem_cons_of_mem _ h
    · rcases h with h | h
      · exact List.mem_cons_of_mem _ (ih (Or.inl h))
      · rcases List.mem_cons.mp h with h1 | h1
        · exact h1 ▸ List.mem_cons_self _ _
        · exact List.mem_cons_of_mem _ (ih (Or.inr h1))

theorem insertSorted_ne_nil (keyOf : String → Int × Int) (x : String)
    (l : List String) : insertSorted keyOf x l ≠ [] := by
  cases l with
  | nil => simp [insertSorted]
  | cons y ys =>
    simp only [insertSorted]
    split <;> simp

/-- The head of a list is a `lexLe`-minimum of its members. -/
def headMinP (keyOf : String → Int × Int) (l : List String) : Prop :=
  ∀ h, l.head? = some h → ∀ a ∈ l, lexLe (keyOf h) (keyOf a) = true

theorem headMin_insertSorted (keyOf : String → Int × Int) (x : String)
    (l : List String) (hP : headMinP keyOf l) :
    headMinP keyOf (insertSorted keyOf x l) := by
  cases l with
  | nil =>
    intro h hh a ha
    simp only [insertSorted] at hh ha
    simp at hh ha
    subst hh
    subst ha
    exact lexLe_refl _
  | cons y ys =>
    intro h hh a ha
    simp only [insertSorted] at hh ha
    by_cases hc : lexLe (keyOf x) (keyOf y) = true
    · rw [if_pos hc] at hh ha
      simp only [List.head?_cons, Option.some.injEq] at hh
      subst hh
      rcases List.mem_cons.mp ha with h1 | h1
      · exact h1 ▸ lexLe_refl _
      · rcases List.mem_cons.mp h1 with h2 | h2
        · exact h2 ▸ hc
        · exact lexLe_trans _ _ _ hc
            (hP y rfl a (List.mem_cons_of_mem y h2))
    · rw [if_neg hc] at hh ha
      simp only [List.head?_cons, Option.some.injEq] at hh
      subst hh
      rcases List.mem_cons.mp ha with h1 | h1
      · exact h1 ▸ lexLe_refl _
      · rcases mem_insertSorted keyOf x a ys h1 with h2 | h2
        · subst h2
          rcases lexLe_total (keyOf a) (keyOf y) with ht | ht
          · exact absurd ht hc
          · exact ht
        · exact hP y rfl a (List.mem_cons_of_mem y h2)

theorem sort_subset (cfg : StoreCfg) (sys : Sys) :
    ∀ (keys : List String) (a : String),
      a ∈ sortByPriorityAndSize cfg sys keys → a ∈ keys := by
  intro keys
  induction keys with
  | nil =>
    intro a ha
    simp [sortByPriorityAndSize] at ha
  | cons y ys ih =>
    intro a ha
    simp only [sortByPriorityAndSize, List.foldr_cons] at ha
    rcases mem_insertSorted _ y a _ ha with h | h
    · exact h ▸ List.mem_cons_self y ys
    · exact List.mem_cons_of_mem y (ih a h)

theorem sort_superset (cfg : StoreCfg) (sys : Sys) :
    ∀ (keys : List String) (a : String),
      a ∈ keys → a ∈ sortByPriorityAndSize cfg sys keys := by
  intro keys
  induction keys with
  | nil =>
    intro a ha
    simp at ha
  | cons y ys ih =>
    intro a ha
    simp only [sortByPriorityAndSize, List.foldr_cons]
    rcases List.mem_cons.mp ha with h | h
    · exact mem_insertSorted_of _ y a _ (Or.inl h)
    · exact mem_insertSorted_of _ y a _ (Or.inr (ih a h))

theorem sort_headMin (cfg : StoreCfg) (sys : Sys) (keys : List String) :
    headMinP (evictionSortKey cfg sys) (sortByPriorityAndSize cfg sys keys) := by
  induction keys with
  | nil =>
    intro h hh a ha
    simp [sortByPriorityAndSize] at hh
  | cons y ys ih =>
    simp only [sortByPriorityAndSize, List.foldr_cons]
    exact headMin_insertSorted _ y _ ih

theorem sort_ne_nil (cfg : StoreCfg) (sys : Sys) (keys : List String)
    (h : keys ≠ []) : sortByPriorityAndSize cfg sys keys ≠ [] := by
  cases keys with
  | nil => exact absurd rfl h
  | cons y ys =>
    simp only [sortByPriorityAndSize, List.foldr_cons]
    exact insertSorted_ne_nil _ _ _

/-- C2 counterexample: session id `x`, a current-session entry
`slsm-x||a` (priority 1) and an unscoped entry `slsm||c` (priority 5).
The spec's selection (prefer entries of a different *or unscoped*
session) picks `slsm||c`; the code's filter also drops every `slsm|`-
prefixed key from the preferred pool, leaving it empty, so the code
falls back to the full candidate list and evicts the current session's
`slsm-x||a` even though an unscoped entry exists. -/
theorem quota_eviction_prefers_current_session_over_unscoped :
    selectEvictionCandidate c2xcfg c2xsys "slsm-x||w" = some "slsm-x||a" ∧
    specSelectEvictionCandidate c2xcfg c2xsys "slsm-x||w" = some "slsm||c" ∧
    strStartsWith "slsm-x||a"
      ("slsm-" ++ currentSessionIdString c2xcfg) = true ∧
    strStartsWith "slsm||c"
      ("slsm-" ++ currentSessionIdString c2xcfg) = false :=
  ⟨by decide, by decide, by decide, by decide⟩

/-- C2 (amended): the eviction phase's pool of preferred candidates
holds the keys of *scoped different sessions* only — any `slsm|`-
prefixed (unscoped or session-storage) key is excluded from it. When
that pool is nonempty the selected candidate is a member of it of
minimal `[priority, -size]` sort key; otherwise the candidate is a
minimal member of the full candidate list. Consequently, for items with
priorities `[1, 5, 10]` all in the current session, the eviction loop's
evicted-key sequence is always a prefix of `[low, med, high]`: priority
1 goes first, then 5, and priority 10 is never evicted while a
lower-priority candidate remains. -/
theorem quota_eviction_order_by_priority :
    (∀ (cfg : StoreCfg) (sys : Sys) (storageKey first : String),
      selectEvictionCandidate cfg sys storageKey = some first →
      (evictionCandidatePool cfg sys storageKey ≠ [] →
        first ∈ evictionCandidatePool cfg sys storageKey ∧
        ∀ a ∈ evictionCandidatePool cfg sys storageKey,
          lexLe (evictionSortKey cfg sys first)
            (evictionSortKey cfg sys a) = true) ∧
      (evictionCandidatePool cfg sys storageKey = [] →
        first ∈ getStorageItemKeys sys.localStore (some storageKey) ∧
        ∀ a ∈ getStorageItemKeys sys.localStore (some storageKey),
          lexLe (evictionSortKey cfg sys first)
            (evictionSortKey cfg sys a) = true)) ∧
    (∀ (tryOp : Sys → Option Sys) (fuel : Nat), 4 ≤ fuel →
      ∃ n, (quotaEvictionLoop c2cfgS tryOp "slsm-s1||w" 0 fuel c2sysS).2.1 =
        ["slsm-s1||low", "slsm-s1||med", "slsm-s1||high"].take n) := by
  constructor
  · intro cfg sys storageKey first hsel
    unfold evictionCandidatePool
    simp only [selectEvictionCandidate] at hsel
    cases hs1 : sortByPriorityAndSize cfg sys
        ((getStorageItemKeys sys.localStore (some storageKey)).filter
          (fun k => !(strStartsWith k
              ("slsm-" ++ currentSessionIdString cfg)) &&
            !(strStartsWith k "slsm|"))) with
    | nil =>
      rw [hs1] at hsel
      simp only [List.head?_nil] at hsel
      have hpoolnil : (getStorageItemKeys sys.localStore
          (some storageKey)).filter
            (fun k => !(strStartsWith k
                ("slsm-" ++ currentSessionIdString cfg)) &&
              !(strStartsWith k "slsm|")) = [] := by
        by_contra hne
        exact (sort_ne_nil cfg sys _ hne) hs1
      cases hs2 : sortByPriorityAndSize cfg sys
          (getStorageItemKeys sys.localStore (some storageKey)) with
      | nil =>
        rw [hs2] at hsel
        simp at hsel
      | cons f0 rest =>
        rw [hs2] at hsel
        simp only [List.head?_cons, Option.some.injEq] at hsel
        subst hsel
        constructor
        · intro hne
          exact absurd hpoolnil hne
        · intro _
          have hmem : f0 ∈ sortByPriorityAndSize cfg sys
              (getStorageItemKeys sys.localStore (some storageKey)) := by
            rw [hs2]
            exact List.mem_cons_self _ _
          refine ⟨sort_subset cfg sys _ f0 hmem, ?_⟩
          intro a ha
          exact sort_headMin cfg sys _ f0 (by rw [hs2]; rfl) a
            (sort_superset cfg sys _ a ha)
    | cons f0 rest =>
      rw [hs1] at hsel
      simp only [List.head?_cons, Option.some.injEq] at hsel
      subst hsel
      constructor
      · intro _
        have hmem : f0 ∈ sortByPriorityAndSize cfg sys
            ((getStorageItemKeys sys.localStore (some storageKey)).filter
              (fun k => !(strStartsWith k
                  ("slsm-" ++ currentSessionIdString cfg)) &&
                !(strStartsWith k "slsm|"))) := by
          rw [hs1]
          exact List.mem_cons_self _ _
        refine ⟨sort_subset cfg sys _ f0 hmem, ?_⟩
        intro a ha
        exact sort_headMin cfg sys _ f0 (by rw [hs1]; rfl) a
          (sort_superset cfg sys _ a ha)
      · intro hpe
        rw [hpe] at hs1
        simp [sortByPriorityAndSize] at hs1
  · intro tryOp fuel hf
    obtain ⟨g1, rfl⟩ : ∃ m, fuel = m + 1 := ⟨fuel - 1, by omega⟩
    have hg1 : 3 ≤ g1 := by omega
    have e1 : quotaEvictionLoop c2cfgS tryOp "slsm-s1||w" 0 (g1 + 1) c2sysS =
        (match tryOp c2s1 with
         | some s2 => (s2, ["slsm-s1||low"], true)
         | none =>
           ((quotaEvictionLoop c2cfgS tryOp "slsm-s1||w" 0 g1 c2s1).1,
            "slsm-s1||low" ::
              (quotaEvictionLoop c2cfgS tryOp "slsm-s1||w" 0 g1 c2s1).2.1,
            (quotaEvictionLoop c2cfgS tryOp "slsm-s1||w" 0 g1 c2s1).2.2)) := by
      simp only [quotaEvictionLoop]
      rw [if_neg (by decide)]
      rw [show selectEvictionCandidate c2cfgS c2sysS "slsm-s1||w" =
        some "slsm-s1||low" from by decide]
      rfl
    rw [e1]
    cases h1 : tryOp c2s1 with
    | some s2 => exact ⟨1, rfl⟩
    | none =>
      obtain ⟨g2, rfl⟩ : ∃ m, g1 = m + 1 := ⟨g1 - 1, by omega⟩
      have hg2 : 2 ≤ g2 := by omega
      have e2 : quotaEvictionLoop c2cfgS tryOp "slsm-s1||w" 0 (g2 + 1) c2s1 =
          (match tryOp c2s2 with
           | some s2 => (s2, ["slsm-s1||med"], true)
           | none =>
             ((quotaEvictionLoop c2cfgS tryOp "slsm-s1||w" 0 g2 c2s2).1,
              "slsm-s1||med" ::
                (quotaEvictionLoop c2cfgS tryOp "slsm-s1||w" 0 g2 c2s2).2.1,
              (quotaEvictionLoop c2cfgS tryOp "slsm-s1||w" 0 g2 c2s2).2.2)) := by
        simp only [quotaEvictionLoop]
        rw [if_neg (by decide)]
        rw [show selectEvictionCandidate c2cfgS c2s1 "slsm-s1||w" =
          some "slsm-s1||med" from by decide]
        rfl
      rw [e2]
      cases h2 : tryOp c2s2 with
      | some s2 => exact ⟨2, rfl⟩
      | none =>
        obtain ⟨g3, rfl⟩ : ∃ m, g2 = m + 1 := ⟨g2 - 1, by omega⟩
        have hg3 : 1 ≤ g3 := by omega
        have e3 : quotaEvictionLoop c2cfgS tryOp "slsm-s1||w" 0 (g3 + 1)
            c2s2 =
            (match tryOp c2s3 with
             | some s2 => (s2, ["slsm-s1||high"], true)
             | none =>
               ((quotaEvictionLoop c2cfgS tryOp "slsm-s1||w" 0 g3 c2s3).1,
                "slsm-s1||high" ::
                  (quotaEvictionLoop c2cfgS tryOp "slsm-s1||w" 0 g3
                    c2s3).2.1,
                (quotaEvictionLoop c2cfgS tryOp "slsm-s1||w" 0 g3
                  c2s3).2.2)) := by
          simp only [quotaEvictionLoop]
          rw [if_neg (by decide)]
          rw [show selectEvictionCandidate c2cfgS c2s2 "slsm-s1||w" =
            some "slsm-s1||high" from by decide]
          rfl
        rw [e3]
        cases h3 : tryOp c2s3 with
        | some s2 => exact ⟨3, rfl⟩
        | none =>
          obtain ⟨g4, rfl⟩ : ∃ m, g3 = m + 1 := ⟨g3 - 1, by omega⟩
          have e4 : quotaEvictionLoop c2cfgS tryOp "slsm-s1||w" 0 (g4 + 1)
              c2s3 = (c2s3, [], false) := by
            simp only [quotaEvictionLoop]
            rw [if_pos (by decide)]
          rw [e4]
          exact ⟨3, rfl⟩

/-- C2 witness: with a write that never succeeds, the loop on the
`[1, 5, 10]` scenario evicts `low`, then `med`, then `high` — a prefix
of the priority-ordered list. -/
theorem quota_eviction_order_by_priority_witness :
    ∃ n, (quotaEvictionLoop c2cfgS (fun _ => none) "slsm-s1||w" 0 4
        c2sysS).2.1 =
      ["slsm-s1||low", "slsm-s1||med", "slsm-s1||high"].take n :=
  quota_eviction_order_by_priority.2 (fun _ => none) 4 (by decide)

/-- C5 witness: `q = 1, mh = 1` (`t0 = 60000`, `t1 = 120000`, 2-minute
TTL); at `t = 180000 = t0 + d` the surviving value is `{C: null}`. -/
theorem partitioned_ttl_preserves_part_stamps_witness :
    (getValue (c5cfg idSchema .null (2 * 1)) "k" 180000
      (c5sys idSchema .null (2 * 1) (60000 * 1)
        (60000 * 1 + 60000 * ((1 : Nat) : Int)))).2 = .obj [("C", .null)] :=
  (partitioned_ttl_preserves_part_stamps idSchema .null 1 1 180000
      (by decide) (by decide) (by decide)).2.2.1
    (by decide) (by decide)

end Slsm
